import Mathlib

/-!
# Verification of the OpenAI gateway module (`backend/apps/openai/main.py`)

A shallow embedding of the aggregation, routing, parameter-override and
streaming-proxy logic of the gateway, together with theorems settling the
specification claims about it.

Modelling conventions:
* Python values appearing in request/response payloads are embedded as `PyVal`
  (JSON-like: `None`, booleans, integers, floats as rationals, strings, lists,
  string-keyed dicts).  All dict literals in the module use string keys.
* Python exceptions (`KeyError`, `TypeError`, `AttributeError`, `IndexError`)
  are embedded with the `Except PyErr` monad; an `Except.error` escaping a
  handler models an uncaught exception (surfaced by the framework as a
  generic 500 internal error), while `HTTPException` raised deliberately by
  the handler is modelled as an ordinary result constructor.
* Network I/O is embedded as an explicit environment: a function from request
  data to the (optional) response.  `none` models the request raising inside
  `fetch_url`'s `try`/`except` (timeout or connection error), which the source
  converts to a `None` result.
-/

/-- Embedded Python value (the JSON-like fragment used by the module). -/
inductive PyVal where
  | none
  | bool (b : Bool)
  | int (n : Int)
  | float (q : Rat)
  | str (s : String)
  | list (xs : List PyVal)
  | dict (kvs : List (String × PyVal))

/-- Embedded Python exception kinds raised by the modelled code. -/
inductive PyErr where
  | keyError (key : PyVal)
  | typeError
  | attributeError
  | indexError

/-- A Python dict with string keys, as an association list in insertion order. -/
abbrev PyDict := List (String × PyVal)

/-- `d[k]` lookup returning an `Option` (first matching key; real dicts have
unique keys, which all constructions below preserve). -/
def dget (d : PyDict) (k : String) : Option PyVal :=
  match d with
  | [] => Option.none
  | (k', v) :: t => if k' = k then some v else dget t k

/-- Python `d.get(k, default)`. -/
def dgetD (d : PyDict) (k : String) (dflt : PyVal) : PyVal :=
  (dget d k).getD dflt

/-- Python `k in d` for dicts. -/
def dcontains (d : PyDict) (k : String) : Bool :=
  (dget d k).isSome

/-- Python `d[k] = v`: replace the value at `k` in place, or append `(k, v)`
if `k` is absent (insertion-order semantics of Python dicts). -/
def dset (d : PyDict) (k : String) (v : PyVal) : PyDict :=
  match d with
  | [] => [(k, v)]
  | (k', v') :: t => if k' = k then (k', v) :: t else (k', v') :: dset t k v

/-- Python truthiness of an embedded value. -/
def pyTruthy (v : PyVal) : Bool :=
  match v with
  | .none => false
  | .bool b => b
  | .int n => n != 0
  | .float q => q != 0
  | .str s => s ≠ ""
  | .list xs => !xs.isEmpty
  | .dict d => !d.isEmpty

/-- Auxiliary for substring search over character lists. -/
def strInAux (needle : List Char) : List Char → Bool
  | [] => needle.isEmpty
  | c :: t => needle.isPrefixOf (c :: t) || strInAux needle t

/-- Python `needle in hay` for strings: substring containment. -/
def strIn (needle hay : String) : Bool :=
  strInAux needle.toList hay.toList

/-- Python `s.lower()` (ASCII case folding, which is all the case-insensitive
comparisons in the module need). -/
def strLower (s : String) : String :=
  String.mk (s.toList.map Char.toLower)

/-- Python `s.startswith(pre)`. -/
def strStartsWith (s pre : String) : Bool :=
  pre.toList.isPrefixOf s.toList

/-- `v == "s"` where the right operand is a Python string literal: true only
for an equal string value. -/
def pyEqStr (v : PyVal) (s : String) : Bool :=
  match v with
  | .str t => t = s
  | _ => false

/-- Python `k in v` where `k` is a string: key test for dicts, element test
for lists (only a string element can equal a string), substring test for
strings; `TypeError` otherwise. -/
def pyContainsStr (v : PyVal) (k : String) : Except PyErr Bool :=
  match v with
  | .dict d => .ok (dcontains d k)
  | .list xs => .ok (xs.any (fun x => pyEqStr x k))
  | .str s => .ok (strIn k s)
  | _ => .error .typeError

/-- Python `v[k]` where `k` is a string: dict lookup (`KeyError` when absent),
`TypeError` on anything else. -/
def pySubscriptStr (v : PyVal) (k : String) : Except PyErr PyVal :=
  match v with
  | .dict d =>
    match dget d k with
    | some x => .ok x
    | Option.none => .error (.keyError (.str k))
  | _ => .error .typeError

-- ## Backend registry and catalog aggregation (`get_all_models` and helpers)

/-- Python iteration `for x in v`: elements of a list, keys of a dict,
single-character strings of a string; `TypeError` otherwise. -/
def pyIterate (v : PyVal) : Except PyErr (List PyVal) :=
  match v with
  | .list xs => .ok xs
  | .dict d => .ok (d.map (fun kv => .str kv.1))
  | .str s => .ok (s.toList.map (fun c => .str c.toString))
  | _ => .error .typeError

/-- Key/URL list reconciliation from `get_all_models` (main.py:236-255):
if there are more keys than urls drop the extra keys, if there are more urls
than keys pad with empty keys. -/
def reconcileKeys (urls keys : List String) : List String :=
  if keys.length ≠ urls.length then
    if keys.length > urls.length then keys.take urls.length
    else keys ++ List.replicate (urls.length - keys.length) ""
  else keys

/-- The per-response extraction lambda of `get_all_models` (main.py:272-276):
`response["data"] if (response and "data" in response) else
 (response if isinstance(response, list) else None)`. -/
def extractData (response : Option PyVal) : Except PyErr (Option PyVal) :=
  match response with
  | Option.none => .ok Option.none
  | some r =>
    if pyTruthy r then
      match r with
      | .dict d => if dcontains d "data" then .ok (dget d "data") else .ok Option.none
      | .list xs =>
        if xs.any (fun x => pyEqStr x "data") then .error .typeError
        else .ok (some (.list xs))
      | .str s => if strIn "data" s then .error .typeError else .ok Option.none
      | _ => .error .typeError
    else
      match r with
      | .list _ => .ok (some r)
      | _ => .ok Option.none

/-- The comprehension filter of `merge_models_lists` (main.py:218-221):
`"api.openai.com" not in OPENAI_API_BASE_URLS[idx] or "gpt" in model["id"]`. -/
def mergeCond (url : String) (model : PyVal) : Except PyErr Bool :=
  if strIn "api.openai.com" url then do
    let idv ← pySubscriptStr model "id"
    pyContainsStr idv "gpt"
  else .ok true

/-- The per-model transformation of `merge_models_lists` (main.py:210-216):
`{**model, "name": model.get("name", model["id"]), "owned_by": "openai",
  "openai": model, "urlIdx": idx}`. -/
def transformModel (idx : Nat) (model : PyVal) : Except PyErr PyVal := do
  let idv ← pySubscriptStr model "id"
  match model with
  | .dict d =>
    .ok (.dict (dset (dset (dset (dset d "name" (dgetD d "name" idv))
      "owned_by" (.str "openai")) "openai" (.dict d)) "urlIdx" (.int idx)))
  | _ => .error .typeError

/-- The filtered comprehension body of `merge_models_lists` for one backend's
model list (main.py:208-222), element by element. -/
def mergeBackend (url? : Option String) (idx : Nat) : List PyVal → Except PyErr (List PyVal)
  | [] => .ok []
  | m :: t => do
    match url? with
    | Option.none => .error .indexError
    | some url => do
      let c ← mergeCond url m
      if c then do
        let tm ← transformModel idx m
        let rest ← mergeBackend url? idx t
        .ok (tm :: rest)
      else
        mergeBackend url? idx t

/-- One iteration of the `for idx, models in enumerate(model_lists)` loop of
`merge_models_lists` (main.py:206-222): skip when the entry is `None` or
contains an `"error"` marker, otherwise transform and filter its models. -/
def mergeOne (urls : List String) (idx : Nat) (models? : Option PyVal) :
    Except PyErr (List PyVal) :=
  match models? with
  | Option.none => .ok []
  | some v => do
    let hasErr ← pyContainsStr v "error"
    if hasErr then .ok []
    else do
      let xs ← pyIterate v
      mergeBackend urls[idx]? idx xs

/-- The enumerate loop of `merge_models_lists`, carrying the running index. -/
def mergeGo (urls : List String) (idx : Nat) : List (Option PyVal) → Except PyErr (List PyVal)
  | [] => .ok []
  | l :: rest => do
    let c ← mergeOne urls idx l
    let r ← mergeGo urls (idx + 1) rest
    .ok (c ++ r)

/-- `merge_models_lists(model_lists)` (main.py:202-224), reading the backend
base-URL list as its implicit `app.state` input. -/
def mergeModelsLists (urls : List String) (lists : List (Option PyVal)) :
    Except PyErr (List PyVal) :=
  mergeGo urls 0 lists

/-- The `"openai"` sub-record of the static model entries (main.py:294-299). -/
def staticInner (id : String) (t : Int) : PyDict :=
  [("id", .str id), ("object", .str "model"), ("created", .int t),
   ("owned_by", .str "system")]

/-- One static (synthetic) model entry as appended by `get_all_models`
(main.py:287-455); only the first entry of each group carries `"urlIdx": 0`. -/
def staticModel (id : String) (t : Int) (withUrlIdx : Bool) : PyVal :=
  .dict ([("id", .str id), ("object", .str "model"), ("created", .int t),
          ("owned_by", .str "openai"), ("name", .str id),
          ("openai", .dict (staticInner id t))] ++
         if withUrlIdx then [("urlIdx", .int 0)] else [])

/-- The Moonshot static entries (main.py:287-328). -/
def moonshotModels (t : Int) : List PyVal :=
  [staticModel "moonshot-v1-8k" t true,
   staticModel "moonshot-v1-32k" t false,
   staticModel "moonshot-v1-64k" t false]

/-- The Qianfan static entries (main.py:334-453). -/
def qianfanModels (t : Int) : List PyVal :=
  [staticModel "ERNIE-4.0-8K" t true,
   staticModel "ERNIE-4.0-8K-Preview" t false,
   staticModel "ERNIE-4.0-8K-Preview-0518" t false,
   staticModel "ERNIE-4.0-8K-Latest" t false,
   staticModel "ERNIE-4.0-8K-0329" t false,
   staticModel "ERNIE-4.0-8K-0613" t false,
   staticModel "ERNIE-4.0-Turbo-8K" t false,
   staticModel "ERNIE-4.0-Turbo-8K-Preview" t false,
   staticModel "ERNIE-3.5-8K" t false]

/-- The ids of the twelve static model entries. -/
def staticModelIds : List String :=
  ["moonshot-v1-8k", "moonshot-v1-32k", "moonshot-v1-64k",
   "ERNIE-4.0-8K", "ERNIE-4.0-8K-Preview", "ERNIE-4.0-8K-Preview-0518",
   "ERNIE-4.0-8K-Latest", "ERNIE-4.0-8K-0329", "ERNIE-4.0-8K-0613",
   "ERNIE-4.0-Turbo-8K", "ERNIE-4.0-Turbo-8K-Preview", "ERNIE-3.5-8K"]

/-- `model["id"]` as the catalog key (main.py:507).  Dict keys are modelled as
strings, which every id constructed by this module is. -/
def modelIdStr (m : PyVal) : Except PyErr String := do
  let idv ← pySubscriptStr m "id"
  match idv with
  | .str s => .ok s
  | _ => .error .typeError

/-- `app.state.MODELS = {model["id"]: model for model in models["data"]}`
(main.py:507). -/
def dictOfModels (data : List PyVal) : Except PyErr PyDict :=
  data.foldlM (fun acc m => do
    let s ← modelIdStr m
    pure (dset acc s m)) []

/-- The `app.state` fields of the module that the aggregation engine reads and
writes: `ENABLE_OPENAI_API` (by truthiness), `OPENAI_API_BASE_URLS`,
`OPENAI_API_KEYS` and the `MODELS` catalog. -/
structure OAIState where
  enable : Bool
  urls : List String
  keys : List String
  models : PyDict

/-- The "not configured" fast-path test of `get_all_models` (main.py:230-233). -/
def fastPath (st : OAIState) : Bool :=
  (st.keys.length == 1 && st.keys.getD 0 "x" == "") || !st.enable

/-- The aggregation branch of `get_all_models` (main.py:257-507) over an
already-reconciled key list: fan out one `fetch_url` per backend, extract each
response's model list, merge, append the static entries, and build the
`{model["id"]: model}` catalog.  Returns the `models["data"]` list together
with the catalog that is stored in `app.state.MODELS`. -/
def aggregatePass (env : String → String → Option PyVal) (t : Int)
    (urls keys : List String) : Except PyErr (List PyVal × PyDict) := do
  let responses := (urls.zip keys).map (fun uk => env (uk.1 ++ "/models") uk.2)
  let extracted ← responses.mapM extractData
  let merged ← mergeModelsLists urls extracted
  let data := merged ++ moonshotModels t ++ qianfanModels t
  let catalog ← dictOfModels data
  .ok (data, catalog)

/-- `get_all_models()` (main.py:227-509, `raw=False` path, which is the only
one used by the module's own callers).  `env url key` is the outcome of
`fetch_url(url, key)`: `none` models a timeout / connection / parse error
swallowed inside `fetch_url` (main.py:179-189), `some v` a parsed JSON body.
`t` is the sampled `time.time()` value used for the static entries. -/
def getAllModels (env : String → String → Option PyVal) (t : Int) (st : OAIState) :
    Except PyErr (PyVal × OAIState) :=
  if fastPath st then .ok (.dict [("data", .list [])], st)
  else
    (aggregatePass env t st.urls (reconcileKeys st.urls st.keys)).map
      (fun dc => (.dict [("data", .list dc.1)],
        { st with keys := reconcileKeys st.urls st.keys, models := dc.2 }))

/-- `update_openai_urls` (main.py:97-101): refresh the catalog, then replace
the URL list with the submitted one — in that order. -/
def updateOpenaiUrls (env : String → String → Option PyVal) (t : Int)
    (st : OAIState) (newUrls : List String) : Except PyErr OAIState := do
  let r ← getAllModels env t st
  .ok { r.2 with urls := newUrls }

/-- `update_openai_key` (main.py:109-112): replace the key list, nothing else. -/
def updateOpenaiKey (st : OAIState) (newKeys : List String) : OAIState :=
  { st with keys := newKeys }

-- ## Shape predicates and the pure image of the merge

/-- A well-shaped model record: a dict whose `"id"` is a string (the shape
every OpenAI-compatible model-listing reply uses). -/
def wsModel (m : PyVal) : Bool :=
  match m with
  | .dict d =>
    match dget d "id" with
    | some (.str _) => true
    | _ => false
  | _ => false

/-- The id of a well-shaped model record (`""` for anything else). -/
def modelIdOf (m : PyVal) : String :=
  match m with
  | .dict d =>
    match dget d "id" with
    | some (.str s) => s
    | _ => ""
  | _ => ""

/-- A well-shaped post-extraction backend entry: absent (`None`), or a list
of well-shaped model records. -/
def wsList (l : Option PyVal) : Bool :=
  match l with
  | Option.none => true
  | some (.list xs) => xs.all wsModel
  | some _ => false

/-- The merge filter of main.py:218-221 as a Boolean on well-shaped records:
keep unless the backend URL contains `"api.openai.com"` and the id does not
contain `"gpt"`. -/
def filterPassB (url : String) (m : PyVal) : Bool :=
  !(strIn "api.openai.com" url) || strIn "gpt" (modelIdOf m)

/-- The pure image of `transformModel` on well-shaped records. -/
def stampPure (idx : Nat) (m : PyVal) : PyVal :=
  match m with
  | .dict d =>
    .dict (dset (dset (dset (dset d "name" (dgetD d "name" (dgetD d "id" .none)))
      "owned_by" (.str "openai")) "openai" (.dict d)) "urlIdx" (.int idx))
  | _ => .none

/-- The pure image of one backend's merge contribution on well-shaped input. -/
def contribPure (url : String) (idx : Nat) (xs : List PyVal) : List PyVal :=
  (xs.filter (filterPassB url)).map (stampPure idx)

/-- The pure image of one backend entry's merge contribution. -/
def mergeOnePure (urls : List String) (idx : Nat) (l : Option PyVal) : List PyVal :=
  match l with
  | some (.list xs) => contribPure (urls.getD idx "") idx xs
  | _ => []

/-- The pure image of the enumerate loop of `merge_models_lists` on
well-shaped input. -/
def mergePure (urls : List String) (idx : Nat) : List (Option PyVal) → List PyVal
  | [] => []
  | l :: rest => mergeOnePure urls idx l ++ mergePure urls (idx + 1) rest

/-- The pure image of the catalog construction `{model["id"]: model}` on
well-shaped input. -/
def dictOfModelsPure (data : List PyVal) : PyDict :=
  data.foldl (fun acc m => dset acc (modelIdOf m) m) []

/-- The last element of a model list whose id is `s` (the one whose value
survives in a dict keyed by id). -/
def lastMatch (s : String) : List PyVal → Option PyVal
  | [] => Option.none
  | m :: t =>
    match lastMatch s t with
    | some x => some x
    | Option.none => if modelIdOf m == s then some m else Option.none

/-- Whether the (filtered) merge contribution of entry `l` at backend index
`idx` contains a record with id `s`. -/
def contribHasId (urls : List String) (idx : Nat) (l : Option PyVal) (s : String) : Bool :=
  match l with
  | some (.list xs) =>
    xs.any (fun m => filterPassB (urls.getD idx "") m && (modelIdOf m == s))
  | _ => false

/-- The index of the last backend (from running index `idx`) whose surviving
merge contribution lists id `s`. -/
def lastListedGo (urls : List String) (idx : Nat) (lists : List (Option PyVal))
    (s : String) : Option Nat :=
  match lists with
  | [] => Option.none
  | l :: rest =>
    match lastListedGo urls (idx + 1) rest s with
    | some j => some j
    | Option.none => if contribHasId urls idx l s then some idx else Option.none

/-- The index of the last backend whose surviving merge contribution lists
id `s`. -/
def lastListedIdx (urls : List String) (lists : List (Option PyVal)) (s : String) :
    Option Nat :=
  lastListedGo urls 0 lists s

/-- The `"urlIdx"` field of the catalog entry stored under id `s`. -/
def storedUrlIdx (cat : PyDict) (s : String) : Option PyVal :=
  (dget cat s).bind (fun m =>
    match m with
    | .dict d => dget d "urlIdx"
    | _ => Option.none)

-- ## Explicit-index model listing (`get_models`, main.py:527-547)

/-- The canonical OpenAI base URL as written in this module (main.py:119). -/
def canonicalOpenAIBaseURL : String := "https://api.openai.com/v1"

/-- The filter lambda of main.py:544: `"gpt" in model["id"]`. -/
def getModelsFilterElem (m : PyVal) : Except PyErr Bool := do
  let idv ← pySubscriptStr m "id"
  pyContainsStr idv "gpt"

/-- Python `list(filter(f, xs))`: keep elements on which `f` is true,
propagating exceptions raised by `f`. -/
def filterME (f : PyVal → Except PyErr Bool) : List PyVal → Except PyErr (List PyVal)
  | [] => .ok []
  | x :: t => do
    let b ← f x
    let r ← filterME f t
    if b then .ok (x :: r) else .ok r

/-- The post-processing of the explicit-index branch of `get_models`
(main.py:541-547): on a backend whose URL contains `"api.openai.com"`,
replace `response_data["data"]` by its gpt-only filtering; otherwise return
the response unchanged. -/
def getModelsByIdx (url : String) (responseData : PyVal) : Except PyErr PyVal :=
  if strIn "api.openai.com" url then do
    let dv ← pySubscriptStr responseData "data"
    let xs ← pyIterate dv
    let filtered ← filterME getModelsFilterElem xs
    match responseData with
    | .dict d => .ok (.dict (dset d "data" (.list filtered)))
    | _ => .error .typeError
  else .ok responseData

-- ## Parameter-override pipeline (`generate_chat_completion`, main.py:585-648)

/-- `v is None` / `v is not None`: only the `None` object is `None`. -/
def pyIsNone (v : PyVal) : Bool :=
  match v with
  | .none => true
  | _ => false

/-- A value accepted by Python's numeric coercions (or absent); pydantic
stores numbers or `None` in the numeric profile fields.  Numeric-string
parsing is not modelled. -/
def numOk (v : PyVal) : Bool :=
  match v with
  | .none => true
  | .bool _ => true
  | .int _ => true
  | .float _ => true
  | _ => false

/-- A well-shaped `stop` profile value: absent, a string (iterated
character-wise by the comprehension), or a list of strings. -/
def stopOk (v : PyVal) : Bool :=
  match v with
  | .none => true
  | .str _ => true
  | .list xs => xs.all (fun x => match x with | .str _ => true | _ => false)
  | _ => false

/-- Truncation of a rational toward zero — the behaviour of Python `int()`
on a float. -/
def ratTrunc (q : Rat) : Int :=
  if q ≥ 0 then ⌊q⌋ else ⌈q⌉

/-- Python `float(v)` on numeric values; `TypeError` otherwise. -/
def pyFloat (v : PyVal) : Except PyErr PyVal :=
  match v with
  | .int n => .ok (.float n)
  | .float q => .ok (.float q)
  | .bool b => .ok (.float (if b then 1 else 0))
  | _ => .error .typeError

/-- Python `int(v)` on numeric values; `TypeError` otherwise. -/
def pyInt (v : PyVal) : Except PyErr PyVal :=
  match v with
  | .int n => .ok (.int n)
  | .float q => .ok (.int (ratTrunc q))
  | .bool b => .ok (.int (if b then 1 else 0))
  | _ => .error .typeError

/-- The value `float(v)` computes on coercible input (total companion of
`pyFloat`, junk elsewhere). -/
def pyFloatVal (v : PyVal) : PyVal :=
  match v with
  | .int n => .float n
  | .float q => .float q
  | .bool b => .float (if b then 1 else 0)
  | _ => .float 0

/-- The value `int(v)` computes on coercible input (total companion of
`pyInt`, junk elsewhere). -/
def pyIntVal (v : PyVal) : PyVal :=
  match v with
  | .int n => .int n
  | .float q => .int (ratTrunc q)
  | .bool b => .int (if b then 1 else 0)
  | _ => .int 0

/-- The common-case behaviour of `bytes(s, "utf-8").decode("unicode_escape")`
(main.py:612) on the simple backslash escapes; hex/octal/unicode escapes are
not modelled (no claim depends on the decoded characters). -/
def unescapeChars : List Char → List Char
  | [] => []
  | '\\' :: 'n' :: t => '\n' :: unescapeChars t
  | '\\' :: 't' :: t => '\t' :: unescapeChars t
  | '\\' :: 'r' :: t => '\r' :: unescapeChars t
  | '\\' :: '\\' :: t => '\\' :: unescapeChars t
  | c :: t => c :: unescapeChars t

/-- String form of `unescapeChars`. -/
def pyUnicodeUnescape (s : String) : String :=
  String.mk (unescapeChars s.toList)

/-- One pass of the stop-decoding comprehension: `bytes(x, "utf-8")` raises
`TypeError` on a non-string item, otherwise the item is unicode-unescaped. -/
def decodeStopList : List PyVal → Except PyErr (List PyVal)
  | [] => .ok []
  | x :: t =>
    match x with
    | .str s => do
      let r ← decodeStopList t
      .ok (.str (pyUnicodeUnescape s) :: r)
    | _ => .error .typeError

/-- The stop-sequence decoding comprehension of main.py:610-617: iterate the
`stop` value (items of a list, characters of a string) and collect the
unicode-unescaped strings. -/
def decodeStops (v : PyVal) : Except PyErr PyVal := do
  let xs ← pyIterate v
  let decoded ← decodeStopList xs
  .ok (.list decoded)

/-- main.py:592-593: `if params.get("temperature", None) is not None:
payload["temperature"] = float(params.get("temperature"))`. -/
def stepTemperature (p params : PyDict) : Except PyErr PyDict :=
  if pyIsNone (dgetD params "temperature" .none) then .ok p
  else do
    let v ← pyFloat (dgetD params "temperature" .none)
    .ok (dset p "temperature" v)

/-- main.py:595-604: the three truthiness-guarded integer-coerced overrides
(`top_p`, `max_tokens`, `frequency_penalty`), which differ only in the key:
`if params.get(key, None): payload[key] = int(params.get(key, None))`. -/
def stepIntParam (key : String) (p params : PyDict) : Except PyErr PyDict :=
  if pyTruthy (dgetD params key .none) then do
    let v ← pyInt (dgetD params key .none)
    .ok (dset p key v)
  else .ok p

/-- main.py:606-607: `if params.get("seed", None): payload["seed"] =
params.get("seed", None)` — truthiness-guarded passthrough. -/
def stepSeed (p params : PyDict) : Except PyErr PyDict :=
  if pyTruthy (dgetD params "seed" .none) then
    .ok (dset p "seed" (dgetD params "seed" .none))
  else .ok p

/-- main.py:609-617: truthiness-guarded stop-list decode-and-overwrite (the
inner conditional expression is redundant under the truthy guard). -/
def stepStop (p params : PyDict) : Except PyErr PyDict :=
  if pyTruthy (dgetD params "stop" .none) then do
    let v ← decodeStops (dgetD params "stop" .none)
    .ok (dset p "stop" v)
  else .ok p

/-- The parameter-override block of `generate_chat_completion`
(main.py:591-617), in source order. -/
def applyModelParams (p params : PyDict) : Except PyErr PyDict := do
  let p ← stepTemperature p params
  let p ← stepIntParam "top_p" p params
  let p ← stepIntParam "max_tokens" p params
  let p ← stepIntParam "frequency_penalty" p params
  let p ← stepSeed p params
  stepStop p params

-- ## System-prompt injection (main.py:619-648)

/-- The new system message inserted at position 0 (main.py:642-648). -/
def mkSystemMessage (s : String) : PyVal :=
  .dict [("role", .str "system"), ("content", .str s)]

/-- A message that is a dict whose role is not `"system"` (a message the
search loop of main.py:637-640 steps over without effect). -/
def nonSystemDict (m : PyVal) : Bool :=
  match m with
  | .dict d => !(pyEqStr (dgetD d "role" .none) "system")
  | _ => false

/-- The `for ... else` search loop of main.py:637-648: find the first message
with role `"system"` and prepend the rendered template to its content
(`none` when no system message exists, so the `else:` insert runs).
Non-dict messages raise on `.get`; a missing or non-string content raises on
`message["content"]` / string concatenation. -/
def prependSystem : List PyVal → String → Except PyErr (Option (List PyVal))
  | [], _ => .ok Option.none
  | msg :: t, s =>
    match msg with
    | .dict d =>
      if pyEqStr (dgetD d "role" .none) "system" then
        match dget d "content" with
        | some (.str c) => .ok (some (.dict (dset d "content" (.str (s ++ c))) :: t))
        | some _ => .error .typeError
        | Option.none => .error (.keyError (.str "content"))
      else do
        match ← prependSystem t s with
        | some t' => .ok (some (msg :: t'))
        | Option.none => .ok Option.none
    | _ => .error .attributeError

/-- The system-prompt injection of main.py:634-648, guarded by
`if payload.get("messages"):` — an absent or empty message list is left
untouched.  The source mutates the message list in place; the functional
image stores the updated list back under `"messages"`. -/
def applySystem (p : PyDict) (renderedSystem : String) : Except PyErr PyDict :=
  if pyTruthy (dgetD p "messages" .none) then
    match dgetD p "messages" .none with
    | .list msgs => do
      match ← prependSystem msgs renderedSystem with
      | some msgs' => .ok (dset p "messages" (.list msgs'))
      | Option.none =>
        .ok (dset p "messages" (.list (mkSystemMessage renderedSystem :: msgs)))
    | _ => .error .attributeError
  else .ok p

/-- The model-override profile returned by `Models.get_model_by_id` (the
external model-override store, `apps.webui.models.models`, outside this
module): the fields `generate_chat_completion` reads after
`params.model_dump()`. -/
structure ModelInfo where
  base_model_id : PyVal
  params : PyDict

/-- The `if model_info:` block of `generate_chat_completion`
(main.py:585-648): optional base-model alias substitution, parameter
overrides (only when the dumped params dict is non-empty), then system-prompt
injection.  `render` stands for the external `prompt_template` (utils.task,
outside this module) already specialized to the calling user's name and
location. -/
def applyModelInfo (payload : PyDict) (mi : ModelInfo) (render : String → String) :
    Except PyErr PyDict := do
  let payload := if pyTruthy mi.base_model_id
    then dset payload "model" mi.base_model_id else payload
  let payload ← if pyTruthy (.dict mi.params)
    then applyModelParams payload mi.params else .ok payload
  let sys := dgetD mi.params "system" .none
  if pyTruthy sys then
    match sys with
    | .str s => applySystem payload (render s)
    | _ => .error .typeError
  else .ok payload

-- ## Streaming proxy engine (`generate_chat_completion`, main.py:683-728)

/-- The backend's HTTP response as the handler observes it: status, headers,
the body's chunk stream in arrival order, and the result of `await r.json()`
(`none` models a decode failure). -/
structure NetResponse where
  status : Nat
  headers : List (String × String)
  chunks : List (List Nat)
  jsonBody : Option PyVal

/-- `r.headers.get("Content-Type", "")` (main.py:699); aiohttp's header
multidict is case-insensitive. -/
def contentTypeOf (resp : NetResponse) : String :=
  ((resp.headers.find? (fun kv => strLower kv.1 == "content-type")).map Prod.snd).getD ""

/-- Assignment into a string-valued dict (same semantics as `dset`). -/
def sset (d : List (String × String)) (k v : String) : List (String × String) :=
  match d with
  | [] => [(k, v)]
  | (k', v') :: t => if k' = k then (k', v) :: t else (k', v') :: sset t k v

/-- `dict(r.headers)` (main.py:704): fold the header pairs into a dict,
a later duplicate key overwriting an earlier one. -/
def headersDict (hs : List (String × String)) : List (String × String) :=
  hs.foldl (fun acc kv => sset acc kv.1 kv.2) []

/-- The error detail the handler builds (main.py:714-722): parse the body,
relay an `"error"` field as an externally-sourced detail (preferring its
`"message"`), fall back to the generic connection-error message, and map any
exception inside the extraction to the `f"External: {e}"` form. -/
inductive ErrDetail where
  | serverConnError
  | external (v : PyVal)
  | externalExc

/-- What `generate_chat_completion` returns to the framework. -/
inductive ForwardResult where
  | specialized (provider : String) (payload : PyDict)
  | streamed (status : Nat) (headers : List (String × String)) (body : List (List Nat))
  | jsonResult (v : PyVal)
  | httpException (status : Nat) (detail : ErrDetail)

/-- Resource accounting for one call: how many times the handler's own exit
path (the `finally` clause, main.py:724-728) closed the backend response and
session, and the `BackgroundTask(cleanup_response, ...)` attached to a
streaming relay (its two flags: response present, session present). -/
structure CleanupTrace where
  respClosed : Nat
  sessionClosed : Nat
  deferred : Option (Bool × Bool)

/-- The trace of a path that never opened a backend session. -/
def noNetTrace : CleanupTrace := ⟨0, 0, Option.none⟩

/-- `cleanup_response(response, session)` (main.py:192-199): close whichever
of the two is present; returns how many times each resource is released. -/
def cleanupResponse (response session : Bool) : Nat × Nat :=
  ((if response then 1 else 0), (if session then 1 else 0))

/-- Releases performed by the deferred background task when it runs. -/
def runDeferred (d : Option (Bool × Bool)) : Nat × Nat :=
  match d with
  | some rs => cleanupResponse rs.1 rs.2
  | Option.none => (0, 0)

/-- The `except` branch's detail extraction (main.py:714-722). -/
def errorDetailFrom (resp : NetResponse) : ErrDetail :=
  match resp.jsonBody with
  | Option.none => .externalExc
  | some v =>
    match pyContainsStr v "error" with
    | .error _ => .externalExc
    | .ok false => .serverConnError
    | .ok true =>
      match pySubscriptStr v "error" with
      | .error _ => .externalExc
      | .ok ev =>
        match pyContainsStr ev "message" with
        | .error _ => .externalExc
        | .ok true =>
          match pySubscriptStr ev "message" with
          | .ok mv => .external mv
          | .error _ => .externalExc
        | .ok false => .external ev

/-- The outbound-call phase of `generate_chat_completion` (main.py:683-728):
open one session, POST, `raise_for_status` (status ≥ 400 raises), then either
switch to a streaming relay — returning the backend's status, `dict`-ed
headers and its body chunk stream unchanged, with cleanup deferred to a
background task over `(response, session)` — or buffer and decode the body as
one JSON value.  The `finally` clause closes the response and the session
exactly when the call did not become a streaming relay.  `respOutcome = none`
models `session.request` raising (connection error), in which case only the
session exists to close. -/
def forwardChatRequest (respOutcome : Option NetResponse) :
    ForwardResult × CleanupTrace :=
  match respOutcome with
  | Option.none =>
    (.httpException 500 .serverConnError, ⟨0, 1, Option.none⟩)
  | some resp =>
    if resp.status ≥ 400 then
      (.httpException resp.status (errorDetailFrom resp), ⟨1, 1, Option.none⟩)
    else if strIn "text/event-stream" (contentTypeOf resp) then
      (.streamed resp.status (headersDict resp.headers) resp.chunks,
        ⟨0, 0, some (true, true)⟩)
    else
      match resp.jsonBody with
      | some v => (.jsonResult v, ⟨1, 1, Option.none⟩)
      | Option.none => (.httpException resp.status .externalExc, ⟨1, 1, Option.none⟩)

/-- The verified caller identity supplied by the external auth service. -/
structure UserInfo where
  name : String
  id : String
  email : String
  role : String

/-- `generate_chat_completion` (main.py:565-728).  External collaborators are
explicit parameters: `netEnv` is the backend call (url, headers, forwarded
payload ↦ response outcome), `render` is `prompt_template` specialized to the
user, `modelInfo` is `Models.get_model_by_id(model_id)` from the external
model-override store, `catalog` is `app.state.MODELS`, `urls`/`keys` the
configured backend lists.  An `Except.error` is an exception escaping the
handler — e.g. the uncaught `KeyError` of the catalog lookup at main.py:653,
which sits before the `try` block. -/
def generateChatCompletion
    (netEnv : String → List (String × String) → PyDict → Option NetResponse)
    (render : String → String) (user : UserInfo)
    (modelInfo : Option ModelInfo)
    (urls keys : List String) (catalog : List (String × PyVal))
    (formData : PyDict) : Except PyErr (ForwardResult × CleanupTrace) := do
  let payload := formData
  let modelId := dgetD formData "model" .none
  let midStr ← (match modelId with
    | .str s => Except.ok s
    | _ => Except.error PyErr.attributeError)
  if strStartsWith (strLower midStr) "leagent" then
    .ok (.specialized "leagent" payload, noNetTrace)
  else if strStartsWith (strLower midStr) "moonshot" then
    .ok (.specialized "moonshot" payload, noNetTrace)
  else if strStartsWith (strLower midStr) "ernie" then
    .ok (.specialized "qianfan" payload, noNetTrace)
  else do
    let payload ← (match modelInfo with
      | some mi => applyModelInfo payload mi render
      | Option.none => .ok payload)
    let modelEntry ← (match dgetD payload "model" .none with
      | .str s =>
        match dget catalog s with
        | some m => Except.ok m
        | Option.none => Except.error (PyErr.keyError (.str s))
      | v => Except.error (PyErr.keyError v))
    let idxVal ← pySubscriptStr modelEntry "urlIdx"
    let idx ← (match idxVal with
      | .int n => if n ≥ 0 then Except.ok n.toNat else Except.error PyErr.indexError
      | _ => Except.error PyErr.typeError)
    let hasPipe ← pyContainsStr modelEntry "pipeline"
    let pipeTruthy ← (if hasPipe then
        match modelEntry with
        | .dict d => Except.ok (pyTruthy (dgetD d "pipeline" .none))
        | _ => Except.error PyErr.attributeError
      else Except.ok false)
    let payload := if pipeTruthy then
        dset payload "user" (.dict [("name", .str user.name), ("id", .str user.id),
          ("email", .str user.email), ("role", .str user.role)])
      else payload
    let payload := if pyEqStr (dgetD payload "model" .none) "gpt-4-vision-preview" then
        (if dcontains payload "max_tokens" then payload
         else dset payload "max_tokens" (.int 4000))
      else payload
    let url ← (match urls[idx]? with
      | some u => Except.ok u
      | Option.none => Except.error PyErr.indexError)
    let key ← (match keys[idx]? with
      | some k => Except.ok k
      | Option.none => Except.error PyErr.indexError)
    let hdrs := [("Authorization", "Bearer " ++ key),
      ("Content-Type", "application/json")]
    .ok (forwardChatRequest (netEnv (url ++ "/chat/completions") hdrs payload))

-- ## Concrete inputs used by counterexamples and witnesses

/-- A network environment with two backends `A` and `B`, each listing one
model (`model-a` resp. `model-b`). -/
def envAB : String → String → Option PyVal := fun url _ =>
  if url = "A/models" then some (.dict [("data", .list [.dict [("id", .str "model-a")]])])
  else if url = "B/models" then some (.dict [("data", .list [.dict [("id", .str "model-b")]])])
  else Option.none

/-- An enabled state with backend URL list `["A"]`, one key, empty catalog. -/
def stA : OAIState := ⟨true, ["A"], ["k"], []⟩

/-- Two backends where only the second (index 1) lists `moonshot-v1-8k`. -/
def c2Lists : List (Option PyVal) :=
  [Option.none, some (.list [.dict [("id", .str "moonshot-v1-8k")]])]

/-- Two backends both listing the model id `mm`. -/
def c2wLists : List (Option PyVal) :=
  [some (.list [.dict [("id", .str "mm")]]),
   some (.list [.dict [("id", .str "mm")]])]

/-- A network environment where backend `A` responds successfully with the
bare JSON number `5` (a non-catalog shape) and backend `B` with a good model
list. -/
def envC3 : String → String → Option PyVal := fun url _ =>
  if url = "A/models" then some (.int 5)
  else if url = "B/models" then some (.dict [("data", .list [.dict [("id", .str "model-b")]])])
  else Option.none

/-- A well-shaped model record whose id contains `"gpt"`. -/
def gptModel : PyVal := .dict [("id", .str "gpt-4")]

/-- A well-shaped model record whose id does not contain `"gpt"`. -/
def llamaModel : PyVal := .dict [("id", .str "llama")]

/-- One canonical-OpenAI backend listing a gpt and a non-gpt model. -/
def c9wLists : List (Option PyVal) := [some (.list [gptModel, llamaModel])]

-- # Theorems

-- ## Basic dictionary lemmas

theorem dget_dset_self (d : PyDict) (k : String) (v : PyVal) :
    dget (dset d k v) k = some v := by
  induction d with
  | nil => simp [dget, dset]
  | cons hd t ih =>
    obtain ⟨k', v'⟩ := hd
    by_cases h : k' = k <;> simp [dget, dset, h, ih]

theorem dget_dset_ne (d : PyDict) (k k' : String) (v : PyVal) (h : k ≠ k') :
    dget (dset d k v) k' = dget d k' := by
  induction d with
  | nil => simp [dget, dset, h]
  | cons hd t ih =>
    obtain ⟨k₀, v₀⟩ := hd
    by_cases h₀ : k₀ = k
    · subst h₀; simp [dget, dset, h]
    · simp only [dset, if_neg h₀]
      by_cases h₁ : k₀ = k' <;> simp [dget, h₁, ih]

theorem keys_dset (d : PyDict) (k : String) (v : PyVal) :
    (dset d k v).map Prod.fst =
      if k ∈ d.map Prod.fst then d.map Prod.fst else d.map Prod.fst ++ [k] := by
  induction d with
  | nil => simp [dset]
  | cons hd t ih =>
    obtain ⟨k₀, v₀⟩ := hd
    by_cases h₀ : k₀ = k
    · subst h₀; simp [dset]
    · simp only [dset, if_neg h₀, List.map_cons]
      rw [ih]
      by_cases hmem : k ∈ t.map Prod.fst <;>
        simp [hmem, Ne.symm h₀]

theorem nodup_keys_dset (d : PyDict) (k : String) (v : PyVal)
    (h : (d.map Prod.fst).Nodup) : ((dset d k v).map Prod.fst).Nodup := by
  rw [keys_dset]
  by_cases hmem : k ∈ d.map Prod.fst
  · simpa [hmem]
  · have hdisj : (d.map Prod.fst).Disjoint [k] := by
      intro a ha hak
      simp only [List.mem_singleton] at hak
      exact hmem (hak ▸ ha)
    simpa [hmem] using List.Nodup.append h (List.nodup_singleton k) hdisj

-- ## Key/URL reconciliation (claim C8)

theorem reconcileKeys_truncate (urls keys : List String)
    (h : keys.length > urls.length) :
    reconcileKeys urls keys = keys.take urls.length := by
  unfold reconcileKeys
  have hne : keys.length ≠ urls.length := by omega
  simp [hne, h]

theorem reconcileKeys_pad (urls keys : List String)
    (h : keys.length < urls.length) :
    reconcileKeys urls keys = keys ++ List.replicate (urls.length - keys.length) "" := by
  unfold reconcileKeys
  have hne : keys.length ≠ urls.length := by omega
  have hngt : ¬ keys.length > urls.length := by omega
  simp [hne, hngt]

theorem reconcileKeys_length (urls keys : List String) :
    (reconcileKeys urls keys).length = urls.length := by
  rcases Nat.lt_trichotomy keys.length urls.length with hlt | heq | hgt
  · rw [reconcileKeys_pad urls keys hlt]
    simp only [List.length_append, List.length_replicate]
    omega
  · unfold reconcileKeys
    simp [heq]
  · rw [reconcileKeys_truncate urls keys hgt]
    simp only [List.length_take]
    omega

/-- C8: before the aggregation pass of `get_all_models` reads the URL/key
lists to issue its fan-out requests, the key list is reconciled to exactly the
length of the URL list — truncating from the end when there are more keys
than URLs, padding with empty strings when there are fewer — and that
reconciled list is the one stored back into the state. -/
theorem key_list_reconciled_before_aggregation
    (env : String → String → Option PyVal) (t : Int) (st : OAIState)
    (hfast : fastPath st = false)
    (hok : (getAllModels env t st).isOk = true) :
    (getAllModels env t st).map (fun p => p.2.keys) =
      .ok (reconcileKeys st.urls st.keys) ∧
    (getAllModels env t st).map (fun p => p.2.keys.length) = .ok st.urls.length ∧
    (st.keys.length > st.urls.length →
      (getAllModels env t st).map (fun p => p.2.keys) =
        .ok (st.keys.take st.urls.length)) ∧
    (st.keys.length < st.urls.length →
      (getAllModels env t st).map (fun p => p.2.keys) =
        .ok (st.keys ++ List.replicate (st.urls.length - st.keys.length) "")) := by
  cases hagg : aggregatePass env t st.urls (reconcileKeys st.urls st.keys) with
  | error e =>
    rw [getAllModels, if_neg (by simp [hfast]), hagg] at hok
    simp [Except.map, Except.isOk, Except.toBool] at hok
  | ok dc =>
    have hmods : getAllModels env t st =
        .ok (.dict [("data", .list dc.1)],
          { st with keys := reconcileKeys st.urls st.keys, models := dc.2 }) := by
      rw [getAllModels, if_neg (by simp [hfast]), hagg]
      rfl
    refine ⟨by rw [hmods]; rfl, ?_, ?_, ?_⟩
    · rw [hmods]
      simpa [Except.map] using reconcileKeys_length st.urls st.keys
    · intro hgt
      rw [hmods]
      simpa [Except.map] using reconcileKeys_truncate st.urls st.keys hgt
    · intro hlt
      rw [hmods]
      simpa [Except.map] using reconcileKeys_pad st.urls st.keys hlt

/-- Witness for C8 at a concrete state: two URLs, three keys (so the key list
is truncated to length 2). -/
theorem key_list_reconciled_before_aggregation_witness :
    fastPath ⟨true, ["u1", "u2"], ["a", "b", "c"], []⟩ = false ∧
    (getAllModels (fun _ _ => Option.none) 0
        ⟨true, ["u1", "u2"], ["a", "b", "c"], []⟩).map (fun p => p.2.keys) =
      .ok ["a", "b"] := by
  refine ⟨rfl, ?_⟩
  have h := key_list_reconciled_before_aggregation (fun _ _ => Option.none) 0
    ⟨true, ["u1", "u2"], ["a", "b", "c"], []⟩ rfl (by rfl)
  exact h.2.2.1 (by decide)

-- ## URL-list update and catalog refresh (claim C4)

/-- C4 (amended): the URL-update operation does force a catalog refresh, but
the refresh runs *before* the URL list is replaced (main.py:99-100), so the
state stored after the update carries the catalog produced by aggregating
over the *previous* URL list, with only the `urls` field replaced by the
newly supplied list. -/
theorem update_urls_refresh_uses_old_list
    (env : String → String → Option PyVal) (t : Int) (st : OAIState)
    (newUrls : List String) :
    updateOpenaiUrls env t st newUrls =
      (getAllModels env t st).map (fun p => { p.2 with urls := newUrls }) := by
  unfold updateOpenaiUrls
  cases getAllModels env t st <;> rfl

/-- Counterexample to C4 as stated: with backend `A` listing `model-a` and
backend `B` listing `model-b`, updating the URL list from `["A"]` to `["B"]`
stores a catalog that contains `model-a` and does NOT contain `model-b`,
whereas an aggregation pass over the newly supplied list `["B"]` yields a
catalog that does contain `model-b`. -/
theorem update_urls_refresh_counterexample :
    (updateOpenaiUrls envAB 0 stA ["B"]).map
        (fun s => (dcontains s.models "model-b", dcontains s.models "model-a", s.urls)) =
      .ok (false, true, ["B"]) ∧
    (getAllModels envAB 0 ⟨true, ["B"], ["k"], []⟩).map
        (fun p => dcontains p.2.models "model-b") = .ok true := by
  exact ⟨rfl, rfl⟩

-- ## Except-monad reduction helpers

theorem pbind_ok {α β : Type} (a : α) (f : α → Except PyErr β) :
    ((.ok a : Except PyErr α) >>= f) = f a := rfl

theorem pbind_err {α β : Type} (e : PyErr) (f : α → Except PyErr β) :
    ((.error e : Except PyErr α) >>= f) = .error e := rfl

theorem ppure_eq_ok {α : Type} (a : α) : (pure a : Except PyErr α) = .ok a := rfl

-- ## Well-shaped records and the pure merge image

theorem wsModel_dict (m : PyVal) (h : wsModel m = true) :
    ∃ d, m = .dict d ∧ dget d "id" = some (.str (modelIdOf m)) := by
  cases m with
  | dict d =>
    refine ⟨d, rfl, ?_⟩
    cases hid : dget d "id" with
    | none => simp [wsModel, hid] at h
    | some v =>
      cases v with
      | str s => simp [modelIdOf, hid]
      | none => simp [wsModel, hid] at h
      | bool b => simp [wsModel, hid] at h
      | int n => simp [wsModel, hid] at h
      | float q => simp [wsModel, hid] at h
      | list xs => simp [wsModel, hid] at h
      | dict d2 => simp [wsModel, hid] at h
  | none => simp [wsModel] at h
  | bool b => simp [wsModel] at h
  | int n => simp [wsModel] at h
  | float q => simp [wsModel] at h
  | str s => simp [wsModel] at h
  | list xs => simp [wsModel] at h

theorem pySubscript_id_ws (m : PyVal) (h : wsModel m = true) :
    pySubscriptStr m "id" = .ok (.str (modelIdOf m)) := by
  obtain ⟨d, rfl, hid⟩ := wsModel_dict m h
  simp [pySubscriptStr, hid]

theorem stampPure_fields (idx : Nat) (d : PyDict) :
    ∃ e, stampPure idx (.dict d) = .dict e ∧ dget e "urlIdx" = some (.int idx) ∧
      dget e "openai" = some (.dict d) ∧ dget e "id" = dget d "id" := by
  refine ⟨_, rfl, dget_dset_self _ _ _, ?_, ?_⟩
  · rw [dget_dset_ne _ _ _ _ (by decide)]
    exact dget_dset_self _ _ _
  · rw [dget_dset_ne _ _ _ _ (by decide), dget_dset_ne _ _ _ _ (by decide),
      dget_dset_ne _ _ _ _ (by decide), dget_dset_ne _ _ _ _ (by decide)]

theorem modelIdOf_stampPure (idx : Nat) (m : PyVal) (h : wsModel m = true) :
    modelIdOf (stampPure idx m) = modelIdOf m := by
  obtain ⟨d, rfl, hid⟩ := wsModel_dict m h
  obtain ⟨e, he, _, _, hide⟩ := stampPure_fields idx d
  rw [he]
  simp only [modelIdOf]
  rw [hide]

theorem wsModel_stampPure (idx : Nat) (m : PyVal) (h : wsModel m = true) :
    wsModel (stampPure idx m) = true := by
  obtain ⟨d, rfl, hid⟩ := wsModel_dict m h
  obtain ⟨e, he, _, _, hide⟩ := stampPure_fields idx d
  rw [he]
  simp only [wsModel]
  rw [hide, hid]

theorem stampPure_inj (idx idx' : Nat) (d d' : PyDict)
    (h : stampPure idx (.dict d) = stampPure idx' (.dict d')) :
    idx = idx' ∧ d = d' := by
  obtain ⟨e, he, hu, ho, _⟩ := stampPure_fields idx d
  obtain ⟨e', he', hu', ho', _⟩ := stampPure_fields idx' d'
  rw [he, he'] at h
  injection h with h
  subst h
  rw [hu] at hu'
  rw [ho] at ho'
  refine ⟨?_, ?_⟩
  · simp only [Option.some.injEq, PyVal.int.injEq, Nat.cast_inj] at hu'
    exact hu'
  · simp only [Option.some.injEq, PyVal.dict.injEq] at ho'
    exact ho'

theorem mergeCond_ws (url : String) (m : PyVal) (h : wsModel m = true) :
    mergeCond url m = .ok (filterPassB url m) := by
  unfold mergeCond filterPassB
  by_cases hc : strIn "api.openai.com" url
  · rw [if_pos hc, pySubscript_id_ws m h]
    simp [pbind_ok, pyContainsStr, hc]
  · simp [hc]

theorem transformModel_ws (idx : Nat) (m : PyVal) (h : wsModel m = true) :
    transformModel idx m = .ok (stampPure idx m) := by
  obtain ⟨d, rfl, hid⟩ := wsModel_dict m h
  have hD : dgetD d "id" PyVal.none = .str (modelIdOf (.dict d)) := by
    simp [dgetD, hid]
  unfold transformModel
  rw [pySubscript_id_ws _ h, pbind_ok,
    show PyVal.str (modelIdOf (.dict d)) = dgetD d "id" PyVal.none from hD.symm]
  rfl

theorem mergeBackend_ws (url : String) (idx : Nat) (xs : List PyVal)
    (h : xs.all wsModel = true) :
    mergeBackend (some url) idx xs = .ok (contribPure url idx xs) := by
  induction xs with
  | nil => rfl
  | cons m t ih =>
    rw [List.all_cons, Bool.and_eq_true] at h
    simp only [mergeBackend, mergeCond_ws url m h.1, pbind_ok]
    by_cases hf : filterPassB url m
    · simp only [hf, if_true, transformModel_ws idx m h.1, pbind_ok, ih h.2]
      simp [contribPure, List.filter_cons, hf]
    · simp only [hf, if_false, ih h.2]
      simp [contribPure, List.filter_cons, hf]

theorem ws_no_error_marker (xs : List PyVal) (h : xs.all wsModel = true) :
    (xs.any (fun x => pyEqStr x "error")) = false := by
  rw [List.any_eq_false]
  intro m hm
  rw [List.all_eq_true] at h
  obtain ⟨d, rfl, _⟩ := wsModel_dict m (h m hm)
  simp [pyEqStr]

theorem mergeOne_ws (urls : List String) (idx : Nat) (l : Option PyVal)
    (h : wsList l = true) (hlt : idx < urls.length) :
    mergeOne urls idx l = .ok (mergeOnePure urls idx l) := by
  cases l with
  | none => rfl
  | some v =>
    cases v with
    | list xs =>
      have hws : xs.all wsModel = true := by simpa [wsList] using h
      have hget : urls[idx]? = some (urls.getD idx "") := by
        rw [List.getElem?_eq_getElem hlt, List.getD_eq_getElem urls "" hlt]
      simp only [mergeOne, pyContainsStr, ws_no_error_marker xs hws, pbind_ok,
        Bool.false_eq_true, if_false, pyIterate, hget]
      exact mergeBackend_ws _ idx xs hws
    | none => simp [wsList] at h
    | bool b => simp [wsList] at h
    | int n => simp [wsList] at h
    | float q => simp [wsList] at h
    | str s => simp [wsList] at h
    | dict d => simp [wsList] at h

theorem mergeGo_ws (urls : List String) :
    ∀ (lists : List (Option PyVal)) (idx : Nat), lists.all wsList = true →
    idx + lists.length ≤ urls.length →
    mergeGo urls idx lists = .ok (mergePure urls idx lists) := by
  intro lists
  induction lists with
  | nil => intro idx _ _; rfl
  | cons l rest ih =>
    intro idx h hlen
    rw [List.all_cons, Bool.and_eq_true] at h
    have hlt : idx < urls.length := by
      simp only [List.length_cons] at hlen
      omega
    have hlen' : idx + 1 + rest.length ≤ urls.length := by
      simp only [List.length_cons] at hlen
      omega
    simp only [mergeGo, mergeOne_ws urls idx l h.1 hlt, pbind_ok,
      ih (idx + 1) h.2 hlen', ppure_eq_ok, mergePure]

theorem mergeModelsLists_ws (urls : List String) (lists : List (Option PyVal))
    (hws : lists.all wsList = true) (hlen : lists.length ≤ urls.length) :
    mergeModelsLists urls lists = .ok (mergePure urls 0 lists) :=
  mergeGo_ws urls lists 0 hws (by omega)

theorem modelIdStr_ws (m : PyVal) (h : wsModel m = true) :
    modelIdStr m = .ok (modelIdOf m) := by
  unfold modelIdStr
  rw [pySubscript_id_ws m h, pbind_ok]

theorem dictOfModels_go :
    ∀ (data : List PyVal) (acc : PyDict), data.all wsModel = true →
    (data.foldlM (fun acc m => do
      let s ← modelIdStr m
      pure (dset acc s m)) acc : Except PyErr PyDict) =
      .ok (data.foldl (fun acc m => dset acc (modelIdOf m) m) acc) := by
  intro data
  induction data with
  | nil => intro acc _; rfl
  | cons m t ih =>
    intro acc h
    rw [List.all_cons, Bool.and_eq_true] at h
    rw [List.foldlM_cons, List.foldl_cons]
    simp only [modelIdStr_ws m h.1, pbind_ok, ppure_eq_ok]
    exact ih _ h.2

theorem dictOfModels_ws (data : List PyVal) (h : data.all wsModel = true) :
    dictOfModels data = .ok (dictOfModelsPure data) :=
  dictOfModels_go data [] h

-- ## The catalog dict: last-writer-wins structure

theorem lastMatch_cons_none (s : String) (m : PyVal) (t : List PyVal)
    (ht : lastMatch s t = Option.none) :
    lastMatch s (m :: t) = if modelIdOf m == s then some m else Option.none := by
  simp only [lastMatch, ht]

theorem lastMatch_cons_some (s : String) (m x : PyVal) (t : List PyVal)
    (ht : lastMatch s t = some x) :
    lastMatch s (m :: t) = some x := by
  simp only [lastMatch, ht]

theorem lastMatch_append (s : String) (a b : List PyVal) :
    lastMatch s (a ++ b) =
      match lastMatch s b with
      | some x => some x
      | Option.none => lastMatch s a := by
  induction a with
  | nil =>
    simp only [List.nil_append]
    cases lastMatch s b <;> rfl
  | cons m t ih =>
    rw [List.cons_append]
    cases hb : lastMatch s b with
    | some x =>
      rw [lastMatch_cons_some s m x (t ++ b) (by rw [ih, hb])]
    | none =>
      have htb : lastMatch s (t ++ b) = lastMatch s t := by rw [ih, hb]
      cases ht : lastMatch s t with
      | some y =>
        rw [lastMatch_cons_some s m y (t ++ b) (by rw [htb, ht])]
        rw [lastMatch_cons_some s m y t ht]
      | none =>
        rw [lastMatch_cons_none s m (t ++ b) (by rw [htb, ht])]
        rw [lastMatch_cons_none s m t ht]

theorem lastMatch_eq_none (s : String) (l : List PyVal) :
    lastMatch s l = Option.none ↔ ∀ m ∈ l, ¬ modelIdOf m = s := by
  induction l with
  | nil => simp [lastMatch]
  | cons m t ih =>
    cases hlm : lastMatch s t with
    | some x =>
      rw [lastMatch_cons_some s m x t hlm]
      constructor
      · intro h; exact absurd h (by simp)
      · intro h
        have hn : lastMatch s t = Option.none :=
          ih.mpr (fun m' hm' => h m' (List.mem_cons_of_mem m hm'))
        rw [hn] at hlm
        exact Option.noConfusion hlm
    | none =>
      rw [lastMatch_cons_none s m t hlm]
      by_cases hid : (modelIdOf m == s) = true
      · simp only [hid, if_true]
        constructor
        · intro h; exact absurd h (by simp)
        · intro h
          exact absurd (eq_of_beq hid) (h m (List.mem_cons_self m t))
      · simp only [hid, if_false]
        constructor
        · intro _ m' hm'
          rcases List.mem_cons.mp hm' with rfl | hm'
          · intro hc; simp [hc] at hid
          · exact ih.mp hlm m' hm'
        · intro _; rfl

theorem dget_foldl_dset (s : String) :
    ∀ (data : List PyVal) (acc : PyDict),
    dget (data.foldl (fun acc m => dset acc (modelIdOf m) m) acc) s =
      match lastMatch s data with
      | some m => some m
      | Option.none => dget acc s := by
  intro data
  induction data with
  | nil => intro acc; rfl
  | cons m t ih =>
    intro acc
    rw [List.foldl_cons, ih]
    cases hlm : lastMatch s t with
    | some x => simp only [lastMatch, hlm]
    | none =>
      simp only [lastMatch, hlm]
      by_cases hid : (modelIdOf m == s) = true
      · have heq : modelIdOf m = s := eq_of_beq hid
        simp only [hid, if_true]
        rw [heq, dget_dset_self]
      · have hne : modelIdOf m ≠ s := by
          intro hc; simp [hc] at hid
        simp only [hid, if_false]
        exact dget_dset_ne acc (modelIdOf m) s m hne

theorem dget_dictOfModelsPure (data : List PyVal) (s : String) :
    dget (dictOfModelsPure data) s = lastMatch s data := by
  unfold dictOfModelsPure
  rw [dget_foldl_dset]
  cases lastMatch s data <;> rfl

theorem nodup_keys_dictOfModelsPure (data : List PyVal) :
    ((dictOfModelsPure data).map Prod.fst).Nodup := by
  unfold dictOfModelsPure
  suffices h : ∀ acc : PyDict, (acc.map Prod.fst).Nodup →
      ((data.foldl (fun acc m => dset acc (modelIdOf m) m) acc).map Prod.fst).Nodup by
    exact h [] (by simp)
  induction data with
  | nil => intro acc h; exact h
  | cons m t ih =>
    intro acc h
    rw [List.foldl_cons]
    exact ih _ (nodup_keys_dset acc (modelIdOf m) m h)

-- ## Static entries

theorem wsModel_staticModel (id : String) (t : Int) (b : Bool) :
    wsModel (staticModel id t b) = true := by
  cases b <;> rfl

theorem modelIdOf_staticModel (id : String) (t : Int) (b : Bool) :
    modelIdOf (staticModel id t b) = id := by
  cases b <;> rfl

theorem statics_ws (t : Int) :
    (moonshotModels t ++ qianfanModels t).all wsModel = true := by
  simp [moonshotModels, qianfanModels, wsModel_staticModel]

theorem lastMatch_statics (s : String) (t : Int) (h : s ∉ staticModelIds) :
    lastMatch s (moonshotModels t ++ qianfanModels t) = Option.none := by
  rw [lastMatch_eq_none]
  intro m hm heq
  apply h
  simp only [moonshotModels, qianfanModels, List.mem_append, List.mem_cons,
    List.not_mem_nil, or_false] at hm
  simp only [staticModelIds, List.mem_cons, List.not_mem_nil, or_false]
  rcases hm with (rfl | rfl | rfl) |
      (rfl | rfl | rfl | rfl | rfl | rfl | rfl | rfl | rfl) <;>
    rw [modelIdOf_staticModel] at heq <;> subst heq <;> simp

-- ## Per-contribution and whole-merge last-match characterization

theorem contribPure_cons_pos (url : String) (idx : Nat) (m : PyVal) (t : List PyVal)
    (hf : filterPassB url m = true) :
    contribPure url idx (m :: t) = stampPure idx m :: contribPure url idx t := by
  simp [contribPure, List.filter_cons, hf]

theorem contribPure_cons_neg (url : String) (idx : Nat) (m : PyVal) (t : List PyVal)
    (hf : filterPassB url m = false) :
    contribPure url idx (m :: t) = contribPure url idx t := by
  simp [contribPure, List.filter_cons, hf]

theorem lastMatch_contrib (url : String) (idx : Nat) (s : String) (xs : List PyVal)
    (h : xs.all wsModel = true) :
    (xs.any (fun m => filterPassB url m && (modelIdOf m == s)) = false ∧
      lastMatch s (contribPure url idx xs) = Option.none) ∨
    (xs.any (fun m => filterPassB url m && (modelIdOf m == s)) = true ∧
      ∃ d, lastMatch s (contribPure url idx xs) = some (.dict d) ∧
        dget d "urlIdx" = some (.int idx)) := by
  induction xs with
  | nil => left; exact ⟨rfl, rfl⟩
  | cons m t ih =>
    rw [List.all_cons, Bool.and_eq_true] at h
    rcases ih h.2 with ⟨hany, hnone⟩ | ⟨hany, d, hsome, hidx⟩
    · by_cases hf : filterPassB url m = true
      · by_cases hid : (modelIdOf m == s) = true
        · right
          refine ⟨by simp [List.any_cons, hf, hid], ?_⟩
          obtain ⟨d0, rfl, _⟩ := wsModel_dict m h.1
          obtain ⟨e, he, hu, _, _⟩ := stampPure_fields idx d0
          refine ⟨e, ?_, hu⟩
          rw [contribPure_cons_pos url idx _ t hf,
            lastMatch_cons_none s _ _ hnone]
          have hc : (modelIdOf (stampPure idx (.dict d0)) == s) = true := by
            rw [modelIdOf_stampPure idx _ h.1]
            exact hid
          rw [if_pos hc, he]
        · left
          refine ⟨by simp [List.any_cons, hf, hid, hany], ?_⟩
          rw [contribPure_cons_pos url idx m t hf,
            lastMatch_cons_none s _ _ hnone]
          have hc : (modelIdOf (stampPure idx m) == s) = false := by
            rw [modelIdOf_stampPure idx m h.1]
            simpa using hid
          rw [if_neg (by simp [hc])]
      · left
        have hf' : filterPassB url m = false := by simpa using hf
        refine ⟨by simp [List.any_cons, hf', hany], ?_⟩
        rw [contribPure_cons_neg url idx m t hf']
        exact hnone
    · right
      refine ⟨by simp [List.any_cons, hany], ?_⟩
      by_cases hf : filterPassB url m = true
      · refine ⟨d, ?_, hidx⟩
        rw [contribPure_cons_pos url idx m t hf,
          lastMatch_cons_some s _ _ _ hsome]
      · refine ⟨d, ?_, hidx⟩
        rw [contribPure_cons_neg url idx m t (by simpa using hf)]
        exact hsome

theorem mergePure_lastMatch (urls : List String) (s : String) :
    ∀ (lists : List (Option PyVal)) (idx : Nat), lists.all wsList = true →
    (lastListedGo urls idx lists s = Option.none ∧
      lastMatch s (mergePure urls idx lists) = Option.none) ∨
    (∃ i d, lastListedGo urls idx lists s = some i ∧
      lastMatch s (mergePure urls idx lists) = some (.dict d) ∧
      dget d "urlIdx" = some (.int i)) := by
  intro lists
  induction lists with
  | nil => intro idx _; left; exact ⟨rfl, rfl⟩
  | cons l rest ih =>
    intro idx h
    rw [List.all_cons, Bool.and_eq_true] at h
    simp only [mergePure, lastListedGo]
    rw [lastMatch_append]
    rcases ih (idx + 1) h.2 with ⟨hgo, hlm⟩ | ⟨i, d, hgo, hlm, hidx⟩
    · rw [hgo, hlm]
      cases l with
      | none =>
        left
        simp [mergeOnePure, contribHasId, lastMatch]
      | some v =>
        cases v with
        | list xs =>
          have hws : xs.all wsModel = true := by simpa [wsList] using h.1
          rcases lastMatch_contrib (urls.getD idx "") idx s xs hws with
            ⟨hany, hnone⟩ | ⟨hany, d, hsome, hidx⟩
          · left
            constructor
            · show (if contribHasId urls idx (some (.list xs)) s then some idx
                else Option.none : Option Nat) = Option.none
              have hch : contribHasId urls idx (some (.list xs)) s = false := hany
              simp [hch]
            · simpa [mergeOnePure] using hnone
          · right
            refine ⟨idx, d, ?_, ?_, hidx⟩
            · show (if contribHasId urls idx (some (.list xs)) s then some idx
                else Option.none : Option Nat) = some idx
              have hch : contribHasId urls idx (some (.list xs)) s = true := hany
              simp [hch]
            · simpa [mergeOnePure] using hsome
        | none => simp [wsList] at h
        | bool b => simp [wsList] at h
        | int n => simp [wsList] at h
        | float q => simp [wsList] at h
        | str s' => simp [wsList] at h
        | dict d' => simp [wsList] at h
    · right
      refine ⟨i, d, ?_, ?_, hidx⟩
      · rw [hgo]
      · rw [hlm]

theorem contribPure_ws (url : String) (idx : Nat) (xs : List PyVal)
    (h : xs.all wsModel = true) :
    (contribPure url idx xs).all wsModel = true := by
  rw [List.all_eq_true] at h ⊢
  intro m hm
  unfold contribPure at hm
  rw [List.mem_map] at hm
  obtain ⟨m0, hm0, rfl⟩ := hm
  exact wsModel_stampPure idx m0 (h m0 (List.mem_of_mem_filter hm0))

theorem mergePure_ws (urls : List String) :
    ∀ (lists : List (Option PyVal)) (idx : Nat), lists.all wsList = true →
    (mergePure urls idx lists).all wsModel = true := by
  intro lists
  induction lists with
  | nil => intro idx _; rfl
  | cons l rest ih =>
    intro idx h
    rw [List.all_cons, Bool.and_eq_true] at h
    simp only [mergePure, List.all_append, Bool.and_eq_true]
    refine ⟨?_, ih (idx + 1) h.2⟩
    cases l with
    | none => rfl
    | some v =>
      cases v with
      | list xs => exact contribPure_ws _ idx xs (by simpa [wsList] using h.1)
      | none => simp [wsList] at h
      | bool b => simp [wsList] at h
      | int n => simp [wsList] at h
      | float q => simp [wsList] at h
      | str s => simp [wsList] at h
      | dict d => simp [wsList] at h

theorem merged_data_ws (urls : List String) (lists : List (Option PyVal)) (t : Int)
    (hws : lists.all wsList = true) :
    ((mergePure urls 0 lists) ++ moonshotModels t ++ qianfanModels t).all wsModel = true := by
  have hs := statics_ws t
  rw [List.all_append, Bool.and_eq_true] at hs
  simp [List.all_append, mergePure_ws urls lists 0 hws, hs.1, hs.2]

/-- C2 (amended): for well-shaped backend model lists, and for any model id
that is not among the synthetic static entries' ids, the catalog built at
main.py:507 from the merge result maps that id to exactly one entry (its keys
are duplicate-free), and that entry's `urlIdx` is the index of the last
backend whose surviving (post-canonical-OpenAI-filter) contribution listed
the id.  As stated the claim is false: the static entries appended after the
merge, and ids dropped by the filter, break it (see the counterexample). -/
theorem merged_catalog_last_writer_wins
    (urls : List String) (lists : List (Option PyVal)) (t : Int) (s : String) (i : Nat)
    (hws : lists.all wsList = true)
    (hlen : lists.length ≤ urls.length)
    (hstat : s ∉ staticModelIds)
    (hlast : lastListedIdx urls lists s = some i) :
    ∃ merged cat d,
      mergeModelsLists urls lists = .ok merged ∧
      dictOfModels (merged ++ moonshotModels t ++ qianfanModels t) = .ok cat ∧
      (cat.map Prod.fst).Nodup ∧
      dget cat s = some (.dict d) ∧
      dget d "urlIdx" = some (.int i) := by
  have hmerge := mergeModelsLists_ws urls lists hws hlen
  have hcat := dictOfModels_ws _ (merged_data_ws urls lists t hws)
  rcases mergePure_lastMatch urls s lists 0 hws with ⟨hgo, _⟩ | ⟨i', d, hgo, hlm, hidx⟩
  · rw [lastListedIdx, hgo] at hlast
    exact Option.noConfusion hlast
  · have hii : i' = i := by
      rw [lastListedIdx, hgo] at hlast
      exact Option.some.inj hlast
    subst hii
    refine ⟨mergePure urls 0 lists, dictOfModelsPure _, d, hmerge, hcat,
      nodup_keys_dictOfModelsPure _, ?_, hidx⟩
    rw [dget_dictOfModelsPure, List.append_assoc, lastMatch_append,
      lastMatch_statics s t hstat]
    exact hlm

/-- Witness for the amended C2: two backends both list `mm`; the stored entry
carries `urlIdx = 1`, the index of the last one. -/
theorem merged_catalog_last_writer_wins_witness :
    ("mm" ∉ staticModelIds) ∧
    lastListedIdx ["u1", "u2"] c2wLists "mm" = some 1 ∧
    ∃ merged cat d,
      mergeModelsLists ["u1", "u2"] c2wLists = .ok merged ∧
      dictOfModels (merged ++ moonshotModels 0 ++ qianfanModels 0) = .ok cat ∧
      (cat.map Prod.fst).Nodup ∧
      dget cat "mm" = some (.dict d) ∧
      dget d "urlIdx" = some (.int 1) := by
  refine ⟨by decide, by rfl, ?_⟩
  exact merged_catalog_last_writer_wins ["u1", "u2"] c2wLists 0 "mm" 1
    (by rfl) (by decide) (by decide) (by rfl)

/-- Counterexample to C2 as stated: backend 1 is the only (hence last) backend
listing `moonshot-v1-8k`, yet the stored catalog entry for that id is the
static entry appended after the merge, whose `urlIdx` is `0`, not `1`. -/
theorem merged_catalog_counterexample :
    ((mergeModelsLists ["u0", "u1"] c2Lists).bind (fun merged =>
        dictOfModels (merged ++ moonshotModels 0 ++ qianfanModels 0))).map
      (fun cat => storedUrlIdx cat "moonshot-v1-8k") = .ok (some (.int 0)) ∧
    some (PyVal.int 0) ≠ some (PyVal.int 1) := by
  constructor
  · rfl
  · simp

-- ## Partial-failure tolerance (claim C3)

theorem lastListedGo_none (urls : List String) (s : String) :
    ∀ (lists : List (Option PyVal)) (idx : Nat),
    lastListedGo urls idx lists s = Option.none →
    ∀ (k : Nat) (l : Option PyVal), lists[k]? = some l →
    contribHasId urls (idx + k) l s = false := by
  intro lists
  induction lists with
  | nil => intro idx _ k l hk; simp at hk
  | cons l0 rest ih =>
    intro idx hnone k l hk
    have hrec : lastListedGo urls (idx + 1) rest s = Option.none := by
      cases hr : lastListedGo urls (idx + 1) rest s with
      | some j =>
        rw [lastListedGo, hr] at hnone
        exact absurd hnone (by simp)
      | none => rfl
    have hhead : contribHasId urls idx l0 s = false := by
      by_cases hch : contribHasId urls idx l0 s = true
      · exfalso
        rw [lastListedGo, hrec, hch] at hnone
        exact absurd hnone (by simp)
      · simpa using hch
    cases k with
    | zero =>
      simp only [List.getElem?_cons_zero, Option.some.injEq] at hk
      rw [Nat.add_zero, ← hk]
      exact hhead
    | succ k' =>
      simp only [List.getElem?_cons_succ] at hk
      have hres := ih (idx + 1) hrec k' l hk
      rwa [show idx + 1 + k' = idx + (k' + 1) by omega] at hres

/-- C3 (amended): a backend whose fetch fails yields a `None` entry which the
merge skips without affecting the others, and the catalog built from the
merge contains every model of every successfully responding backend that
passes the canonical-OpenAI gpt filter.  As stated the claim is false: a
backend that successfully returns a truthy non-(dict/list/string) JSON body
(e.g. a bare number) raises an uncaught `TypeError` that aborts the whole
aggregation (see the counterexample), and a successful canonical-OpenAI
backend's non-gpt models are silently dropped. -/
theorem partial_failure_merge_tolerance
    (urls : List String) (lists : List (Option PyVal)) (t : Int) (s : String)
    (j i : Nat) (xs : List PyVal) (m : PyVal)
    (hws : lists.all wsList = true)
    (hlen : lists.length ≤ urls.length)
    (hfail : lists[j]? = some Option.none)
    (hsucc : lists[i]? = some (some (.list xs)))
    (hmem : m ∈ xs)
    (hid : modelIdOf m = s)
    (hpass : filterPassB (urls.getD i "") m = true) :
    ∃ merged cat,
      mergeModelsLists urls lists = .ok merged ∧
      dictOfModels (merged ++ moonshotModels t ++ qianfanModels t) = .ok cat ∧
      dcontains cat s = true := by
  have hmerge := mergeModelsLists_ws urls lists hws hlen
  have hcat := dictOfModels_ws _ (merged_data_ws urls lists t hws)
  refine ⟨_, _, hmerge, hcat, ?_⟩
  rcases mergePure_lastMatch urls s lists 0 hws with ⟨hgo, _⟩ | ⟨i', d, hgo, hlm, _⟩
  · exfalso
    have hzero := lastListedGo_none urls s lists 0 hgo i _ hsucc
    rw [Nat.zero_add] at hzero
    have hch : contribHasId urls i (some (.list xs)) s = true := by
      show (xs.any (fun m' => filterPassB (urls.getD i "") m' && (modelIdOf m' == s))) = true
      rw [List.any_eq_true]
      exact ⟨m, hmem, by rw [hpass, hid]; simp⟩
    rw [hch] at hzero
    exact absurd hzero (by simp)
  · unfold dcontains
    rw [dget_dictOfModelsPure, List.append_assoc, lastMatch_append]
    cases hsm : lastMatch s (moonshotModels t ++ qianfanModels t) with
    | some x => simp
    | none =>
      show (lastMatch s (mergePure urls 0 lists)).isSome = true
      rw [hlm]
      rfl

/-- Witness for the amended C3: backend 0 fails, backend 1 lists `model-b`,
and the catalog still contains `model-b`. -/
theorem partial_failure_merge_tolerance_witness :
    (∃ merged cat,
      mergeModelsLists ["A", "B"]
        [Option.none, some (.list [.dict [("id", .str "model-b")]])] = .ok merged ∧
      dictOfModels (merged ++ moonshotModels 0 ++ qianfanModels 0) = .ok cat ∧
      dcontains cat "model-b" = true) := by
  exact partial_failure_merge_tolerance ["A", "B"]
    [Option.none, some (.list [.dict [("id", .str "model-b")]])] 0 "model-b"
    0 1 [.dict [("id", .str "model-b")]] (.dict [("id", .str "model-b")])
    (by rfl) (by decide) rfl rfl (List.mem_singleton.mpr rfl) rfl (by rfl)

/-- Counterexample to C3 as stated: backend `A` responds successfully with
the non-catalog JSON body `5`; instead of yielding a `nil` entry for that
index, the whole aggregation pass raises an uncaught `TypeError`, so backend
`B`'s models never reach the catalog and the failure is raised to the caller. -/
theorem partial_failure_counterexample :
    getAllModels envC3 0 ⟨true, ["A", "B"], ["k", "k2"], []⟩ =
      .error PyErr.typeError := by
  rfl

-- ## The canonical-OpenAI gpt filter (claim C9)

theorem mem_contribPure (url : String) (idx : Nat) (xs : List PyVal) (x : PyVal) :
    x ∈ contribPure url idx xs ↔
      ∃ m, m ∈ xs ∧ filterPassB url m = true ∧ x = stampPure idx m := by
  unfold contribPure
  rw [List.mem_map]
  constructor
  · rintro ⟨m, hm, rfl⟩
    rw [List.mem_filter] at hm
    exact ⟨m, hm.1, hm.2, rfl⟩
  · rintro ⟨m, hm, hf, rfl⟩
    exact ⟨m, List.mem_filter.mpr ⟨hm, hf⟩, rfl⟩

theorem mem_mergePure (urls : List String) (x : PyVal) :
    ∀ (lists : List (Option PyVal)) (idx : Nat),
    x ∈ mergePure urls idx lists ↔
      ∃ j xs m, lists[j]? = some (some (.list xs)) ∧ m ∈ xs ∧
        filterPassB (urls.getD (idx + j) "") m = true ∧ x = stampPure (idx + j) m := by
  intro lists
  induction lists with
  | nil =>
    intro idx
    simp [mergePure]
  | cons l rest ih =>
    intro idx
    simp only [mergePure, List.mem_append]
    constructor
    · rintro (hx | hx)
      · cases l with
        | none => simp [mergeOnePure] at hx
        | some v =>
          cases v with
          | list xs =>
            rw [show mergeOnePure urls idx (some (.list xs)) =
                contribPure (urls.getD idx "") idx xs from rfl,
              mem_contribPure] at hx
            obtain ⟨m, hm, hf, rfl⟩ := hx
            exact ⟨0, xs, m, by simp, hm, by simpa using hf, by simp⟩
          | none => simp [mergeOnePure] at hx
          | bool b => simp [mergeOnePure] at hx
          | int n => simp [mergeOnePure] at hx
          | float q => simp [mergeOnePure] at hx
          | str s => simp [mergeOnePure] at hx
          | dict d => simp [mergeOnePure] at hx
      · obtain ⟨j, xs, m, h1, h2, h3, h4⟩ := (ih (idx + 1)).mp hx
        refine ⟨j + 1, xs, m, by simpa using h1, h2, ?_, ?_⟩
        · rwa [show idx + (j + 1) = idx + 1 + j by omega]
        · rwa [show idx + (j + 1) = idx + 1 + j by omega]
    · rintro ⟨j, xs, m, h1, h2, h3, h4⟩
      cases j with
      | zero =>
        left
        simp only [List.getElem?_cons_zero, Option.some.injEq] at h1
        rw [h1]
        rw [show mergeOnePure urls idx (some (.list xs)) =
            contribPure (urls.getD idx "") idx xs from rfl, mem_contribPure]
        exact ⟨m, h2, by simpa using h3, by simpa using h4⟩
      | succ j' =>
        right
        rw [ih (idx + 1)]
        simp only [List.getElem?_cons_succ] at h1
        refine ⟨j', xs, m, h1, h2, ?_, ?_⟩
        · rwa [show idx + 1 + j' = idx + (j' + 1) by omega]
        · rwa [show idx + 1 + j' = idx + (j' + 1) by omega]

theorem ws_at_position (lists : List (Option PyVal)) (idx : Nat) (xs : List PyVal)
    (hws : lists.all wsList = true)
    (hl : lists[idx]? = some (some (.list xs))) :
    xs.all wsModel = true := by
  rw [List.all_eq_true] at hws
  have h := hws (some (.list xs)) (List.getElem?_mem hl)
  simpa [wsList] using h

theorem filterME_gpt (ys : List PyVal) (h : ys.all wsModel = true) :
    filterME getModelsFilterElem ys =
      .ok (ys.filter (fun y => strIn "gpt" (modelIdOf y))) := by
  induction ys with
  | nil => rfl
  | cons y t ih =>
    rw [List.all_cons, Bool.and_eq_true] at h
    have hy : getModelsFilterElem y = .ok (strIn "gpt" (modelIdOf y)) := by
      unfold getModelsFilterElem
      rw [pySubscript_id_ws y h.1, pbind_ok]
      rfl
    simp only [filterME, hy, pbind_ok, ih h.2, List.filter_cons]
    by_cases hf : strIn "gpt" (modelIdOf y) = true
    · simp [hf]
    · simp only [hf, if_false]
      simp [Bool.not_eq_true] at hf
      simp [hf]

/-- C9 (amended): in both the merge step and the explicit-index listing path,
a backend whose base URL *contains the substring* `"api.openai.com"`
contributes a model only if its id contains `"gpt"`, while a backend whose
URL does not contain that substring passes through unfiltered.  As stated
("whose base URL is the canonical OpenAI URL") the claim is false: the code
tests substring containment, so a non-canonical URL containing
`"api.openai.com"` is filtered too (see the counterexample). -/
theorem canonical_openai_gpt_filter
    (urls : List String) (lists : List (Option PyVal)) (idx : Nat) (url : String)
    (xs : List PyVal) (m : PyVal)
    (hws : lists.all wsList = true)
    (hlen : lists.length ≤ urls.length)
    (hurl : urls[idx]? = some url)
    (hl : lists[idx]? = some (some (.list xs)))
    (hmem : m ∈ xs) :
    (∃ merged, mergeModelsLists urls lists = .ok merged ∧
      (strIn "api.openai.com" url = true → strIn "gpt" (modelIdOf m) = false →
        stampPure idx m ∉ merged) ∧
      (strIn "api.openai.com" url = false → stampPure idx m ∈ merged) ∧
      (strIn "api.openai.com" url = true → strIn "gpt" (modelIdOf m) = true →
        stampPure idx m ∈ merged)) ∧
    (∀ (rd : PyDict) (ys : List PyVal), dget rd "data" = some (.list ys) →
      ys.all wsModel = true →
      (strIn "api.openai.com" url = true →
        getModelsByIdx url (.dict rd) =
          .ok (.dict (dset rd "data"
            (.list (ys.filter (fun y => strIn "gpt" (modelIdOf y))))))) ∧
      (strIn "api.openai.com" url = false →
        getModelsByIdx url (.dict rd) = .ok (.dict rd))) := by
  have hxs : xs.all wsModel = true := ws_at_position lists idx xs hws hl
  have hwm : wsModel m = true := by
    rw [List.all_eq_true] at hxs
    exact hxs m hmem
  have hgetD : urls.getD idx "" = url := by
    rw [List.getD_eq_getElem?_getD, hurl]
    rfl
  constructor
  · refine ⟨mergePure urls 0 lists, mergeModelsLists_ws urls lists hws hlen, ?_, ?_, ?_⟩
    · intro hc hg hmm
      rw [mem_mergePure] at hmm
      obtain ⟨j, xs', m', h1, h2, h3, h4⟩ := hmm
      rw [Nat.zero_add] at h3 h4
      obtain ⟨d, rfl, _⟩ := wsModel_dict m hwm
      have hwm' : wsModel m' = true := by
        have hxs' := ws_at_position lists j xs' hws h1
        rw [List.all_eq_true] at hxs'
        exact hxs' m' h2
      obtain ⟨d', rfl, _⟩ := wsModel_dict m' hwm'
      obtain ⟨hji, hdd⟩ := stampPure_inj idx j d d' h4
      subst hdd
      rw [← hji, hgetD] at h3
      rw [filterPassB, hc, hg] at h3
      simp at h3
    · intro hc
      rw [mem_mergePure]
      refine ⟨idx, xs, m, hl, hmem, ?_, by rw [Nat.zero_add]⟩
      rw [Nat.zero_add, hgetD, filterPassB, hc]
      rfl
    · intro hc hg
      rw [mem_mergePure]
      refine ⟨idx, xs, m, hl, hmem, ?_, by rw [Nat.zero_add]⟩
      rw [Nat.zero_add, hgetD, filterPassB, hc, hg]
      rfl
  · intro rd ys hdata hys
    constructor
    · intro hc
      unfold getModelsByIdx
      rw [if_pos hc]
      simp only [pySubscriptStr, hdata, pbind_ok, pyIterate,
        filterME_gpt ys hys]
    · intro hc
      unfold getModelsByIdx
      rw [if_neg (by simp [hc])]

/-- Witness for the amended C9: the canonical OpenAI backend contributes its
gpt model and drops its llama model from the merge, and the explicit-index
listing path filters the same way. -/
theorem canonical_openai_gpt_filter_witness :
    strIn "api.openai.com" canonicalOpenAIBaseURL = true ∧
    (∃ merged, mergeModelsLists [canonicalOpenAIBaseURL] c9wLists = .ok merged ∧
      stampPure 0 llamaModel ∉ merged ∧ stampPure 0 gptModel ∈ merged) ∧
    getModelsByIdx canonicalOpenAIBaseURL
        (.dict [("data", .list [gptModel, llamaModel])]) =
      .ok (.dict [("data", .list [gptModel])]) := by
  have h1 := canonical_openai_gpt_filter [canonicalOpenAIBaseURL] c9wLists 0
    canonicalOpenAIBaseURL [gptModel, llamaModel] llamaModel
    (by rfl) (by decide) rfl rfl (by simp [c9wLists])
  have h2 := canonical_openai_gpt_filter [canonicalOpenAIBaseURL] c9wLists 0
    canonicalOpenAIBaseURL [gptModel, llamaModel] gptModel
    (by rfl) (by decide) rfl rfl (by simp [c9wLists])
  obtain ⟨⟨merged, hm, hno, _, _⟩, hlist⟩ := h1
  obtain ⟨⟨merged2, hm2, _, _, hyes⟩, _⟩ := h2
  refine ⟨rfl, ⟨merged, hm, hno rfl rfl, ?_⟩, ?_⟩
  · have : merged2 = merged := by
      rw [hm] at hm2
      exact (Except.ok.inj hm2).symm
    rw [← this]
    exact hyes rfl rfl
  · have hres := (hlist [("data", .list [gptModel, llamaModel])]
      [gptModel, llamaModel] rfl (by rfl)).1 rfl
    rw [hres]
    rfl

/-- Counterexample to C9 as stated: a backend whose URL is *not* the
canonical OpenAI URL but merely contains `"api.openai.com"` as a substring
does not pass through unfiltered — its non-gpt model is dropped. -/
theorem canonical_filter_counterexample :
    ¬ ("http://localhost/api.openai.com" = canonicalOpenAIBaseURL) ∧
    mergeModelsLists ["http://localhost/api.openai.com"]
      [some (.list [llamaModel])] = .ok [] := by
  constructor
  · decide
  · rfl

-- ## Streaming relay vs buffered JSON (claim C1)

theorem sset_fresh (d : List (String × String)) (k v : String)
    (h : k ∉ d.map Prod.fst) : sset d k v = d ++ [(k, v)] := by
  induction d with
  | nil => rfl
  | cons kv t ih =>
    obtain ⟨k0, v0⟩ := kv
    simp only [List.map_cons, List.mem_cons] at h
    push_neg at h
    simp only [sset, List.cons_append]
    rw [if_neg fun hc => h.1 hc.symm, ih h.2]

theorem foldl_sset_fresh :
    ∀ (hs : List (String × String)) (acc : List (String × String)),
    (∀ k, k ∈ hs.map Prod.fst → k ∉ acc.map Prod.fst) →
    (hs.map Prod.fst).Nodup →
    hs.foldl (fun a kv => sset a kv.1 kv.2) acc = acc ++ hs := by
  intro hs
  induction hs with
  | nil => intro acc _ _; simp
  | cons kv t ih =>
    intro acc hfresh hnodup
    obtain ⟨k0, v0⟩ := kv
    rw [List.foldl_cons]
    show (t.foldl (fun a kv => sset a kv.1 kv.2) (sset acc k0 v0)) = acc ++ (k0, v0) :: t
    rw [sset_fresh acc k0 v0 (hfresh k0 (by simp))]
    rw [List.map_cons, List.nodup_cons] at hnodup
    rw [ih (acc ++ [(k0, v0)]) ?_ hnodup.2]
    · simp
    · intro k hk
      have h1 : k ∉ acc.map Prod.fst := hfresh k (by simp [hk])
      have h2 : k ≠ k0 := by
        intro heq
        exact hnodup.1 (heq ▸ hk)
      simp [List.map_append, List.mem_append, h1, h2]

theorem headersDict_nodup (hs : List (String × String))
    (h : (hs.map Prod.fst).Nodup) : headersDict hs = hs := by
  unfold headersDict
  rw [foldl_sset_fresh hs [] (by simp) h]
  simp

/-- C1: for a backend response with a 2xx/3xx status, if its Content-Type
contains `text/event-stream` the handler returns a streaming relay whose body
is the backend's chunk stream unchanged (arrival order, no whole-body
buffering), preserving the backend's status code and headers (`dict(r.headers)`,
which is the identity on duplicate-free headers), closing nothing on the
handler's own exit path and deferring cleanup to a background task over the
response and session which releases each exactly once when it runs; otherwise
the body is decoded as one JSON result (a decode failure surfacing as an HTTP
error) and the response and session are each closed exactly once in the
handler's `finally`, with no deferred task. -/
theorem streaming_vs_buffered (resp : NetResponse) (hok : resp.status < 400) :
    (strIn "text/event-stream" (contentTypeOf resp) = true →
      forwardChatRequest (some resp) =
        (.streamed resp.status (headersDict resp.headers) resp.chunks,
          ⟨0, 0, some (true, true)⟩) ∧
      runDeferred (some (true, true)) = (1, 1)) ∧
    ((resp.headers.map Prod.fst).Nodup → headersDict resp.headers = resp.headers) ∧
    (strIn "text/event-stream" (contentTypeOf resp) = false →
      (∀ v, resp.jsonBody = some v →
        forwardChatRequest (some resp) = (.jsonResult v, ⟨1, 1, Option.none⟩)) ∧
      (resp.jsonBody = Option.none →
        forwardChatRequest (some resp) =
          (.httpException resp.status .externalExc, ⟨1, 1, Option.none⟩))) := by
  have hst : ¬ resp.status ≥ 400 := by omega
  refine ⟨?_, headersDict_nodup resp.headers, ?_⟩
  · intro hct
    refine ⟨?_, rfl⟩
    simp [forwardChatRequest, hst, hct]
  · intro hct
    constructor
    · intro v hv
      simp [forwardChatRequest, hst, hct, hv]
    · intro hv
      simp [forwardChatRequest, hst, hct, hv]

/-- Witness for C1: a concrete SSE response is relayed with its status,
headers and chunks and a deferred cleanup task; a concrete JSON response is
buffered with both resources closed once in the handler. -/
theorem streaming_vs_buffered_witness :
    (forwardChatRequest (some ⟨200, [("Content-Type", "text/event-stream")],
        [[1, 2], [3]], Option.none⟩) =
      (.streamed 200 [("Content-Type", "text/event-stream")] [[1, 2], [3]],
        ⟨0, 0, some (true, true)⟩) ∧
      runDeferred (some (true, true)) = (1, 1)) ∧
    forwardChatRequest (some ⟨200, [("Content-Type", "application/json")], [],
        some (.dict [("ok", .bool true)])⟩) =
      (.jsonResult (.dict [("ok", .bool true)]), ⟨1, 1, Option.none⟩) := by
  have h1 := streaming_vs_buffered ⟨200, [("Content-Type", "text/event-stream")],
    [[1, 2], [3]], Option.none⟩ (by decide)
  have h2 := streaming_vs_buffered ⟨200, [("Content-Type", "application/json")], [],
    some (.dict [("ok", .bool true)])⟩ (by decide)
  obtain ⟨hs, _, _⟩ := h1
  obtain ⟨_, _, hb⟩ := h2
  have hres := hs (by rfl)
  refine ⟨⟨?_, hres.2⟩, ?_⟩
  · rw [hres.1]
    rfl
  · exact (hb (by rfl)).1 _ rfl

-- ## Catalog lookup of an unknown model id (claim C5)

/-- C5 (amended): for a chat-completion request whose model id is not a
reserved-prefix id, when the (possibly alias-substituted) model id is absent
from the catalog the lookup `app.state.MODELS[payload.get("model")]`
(main.py:653) raises an *uncaught* `KeyError` — surfaced by the framework as
a generic 500-class internal error — because the lookup sits before the
handler's `try` block; no fixed-message 401/404 `ModelNotFound` error exists
on this path. -/
theorem model_lookup_keyerror
    (netEnv : String → List (String × String) → PyDict → Option NetResponse)
    (render : String → String) (user : UserInfo) (modelInfo : Option ModelInfo)
    (urls keys : List String) (catalog : List (String × PyVal))
    (formData : PyDict) (mid : String) (payload' : PyDict) (mid' : String)
    (hmid : dgetD formData "model" .none = .str mid)
    (h1 : strStartsWith (strLower mid) "leagent" = false)
    (h2 : strStartsWith (strLower mid) "moonshot" = false)
    (h3 : strStartsWith (strLower mid) "ernie" = false)
    (hnorm : (match modelInfo with
      | some mi => applyModelInfo formData mi render
      | Option.none => .ok formData) = .ok payload')
    (hmid' : dgetD payload' "model" .none = .str mid')
    (habs : dget catalog mid' = Option.none) :
    generateChatCompletion netEnv render user modelInfo urls keys catalog formData =
      .error (.keyError (.str mid')) := by
  unfold generateChatCompletion
  rw [hmid]
  simp only [pbind_ok, h1, h2, h3, Bool.false_eq_true, if_false, hnorm, hmid', habs,
    pbind_err]

/-- Witness for the amended C5: requesting the unknown id `zz` against an
empty catalog yields the uncaught `KeyError`. -/
theorem model_lookup_keyerror_witness :
    generateChatCompletion (fun _ _ _ => Option.none) id ⟨"n", "i", "e", "user"⟩
      Option.none ["A"] ["k"] [] [("model", .str "zz")] =
      .error (PyErr.keyError (.str "zz")) := by
  exact model_lookup_keyerror (fun _ _ _ => Option.none) id ⟨"n", "i", "e", "user"⟩
    Option.none ["A"] ["k"] [] [("model", .str "zz")] "zz" [("model", .str "zz")]
    "zz" rfl rfl rfl rfl rfl rfl rfl

/-- Counterexample to C5 as stated: with an empty catalog and no override
profile, requesting the unknown model id `missing-model` makes the handler
raise the bare `KeyError` (an uncaught exception, hence a framework-level
500 internal error), not a user-facing 401/404-class error with a fixed
message — the handler result is an `Except.error`, not any
`ForwardResult.httpException`. -/
theorem model_lookup_counterexample :
    generateChatCompletion (fun _ _ _ => Option.none) id
      ⟨"u", "i", "e", "user"⟩ Option.none ["A"] ["k"] []
      [("model", .str "missing-model"), ("messages", .list [])] =
      .error (PyErr.keyError (.str "missing-model")) := by
  rfl

-- ## Parameter override steps (claims C6, C10)

theorem pyTruthy_not_none (v : PyVal) (h : pyTruthy v = true) : pyIsNone v = false := by
  cases v <;> simp_all [pyTruthy, pyIsNone]

theorem pyFloat_ok (v : PyVal) (h : numOk v = true) (hn : pyIsNone v = false) :
    pyFloat v = .ok (pyFloatVal v) := by
  cases v <;> simp_all [numOk, pyIsNone, pyFloat, pyFloatVal]

theorem pyInt_ok (v : PyVal) (h : numOk v = true) (hn : pyIsNone v = false) :
    pyInt v = .ok (pyIntVal v) := by
  cases v <;> simp_all [numOk, pyIsNone, pyInt, pyIntVal]

theorem stepTemperature_spec (p params : PyDict)
    (h : numOk (dgetD params "temperature" .none) = true) :
    ∃ p', stepTemperature p params = .ok p' ∧
      (pyIsNone (dgetD params "temperature" .none) = false →
        dget p' "temperature" = some (pyFloatVal (dgetD params "temperature" .none))) ∧
      (pyIsNone (dgetD params "temperature" .none) = true → p' = p) ∧
      (∀ k, k ≠ "temperature" → dget p' k = dget p k) := by
  by_cases hn : pyIsNone (dgetD params "temperature" .none) = true
  · refine ⟨p, by simp [stepTemperature, hn], ?_, fun _ => rfl, fun k _ => rfl⟩
    intro hc
    rw [hc] at hn
    cases hn
  · have hn' : pyIsNone (dgetD params "temperature" .none) = false := by simpa using hn
    refine ⟨dset p "temperature" (pyFloatVal (dgetD params "temperature" .none)),
      ?_, fun _ => dget_dset_self p _ _, ?_, ?_⟩
    · simp [stepTemperature, hn', pyFloat_ok _ h hn', pbind_ok]
    · intro hc
      rw [hc] at hn'
      cases hn'
    · intro k hk
      exact dget_dset_ne p "temperature" k _ (Ne.symm hk)

theorem stepIntParam_spec (key : String) (p params : PyDict)
    (h : numOk (dgetD params key .none) = true) :
    ∃ p', stepIntParam key p params = .ok p' ∧
      (pyTruthy (dgetD params key .none) = true →
        dget p' key = some (pyIntVal (dgetD params key .none))) ∧
      (pyTruthy (dgetD params key .none) = false → p' = p) ∧
      (∀ k, k ≠ key → dget p' k = dget p k) := by
  by_cases ht : pyTruthy (dgetD params key .none) = true
  · have hn := pyTruthy_not_none _ ht
    refine ⟨dset p key (pyIntVal (dgetD params key .none)),
      ?_, fun _ => dget_dset_self p _ _, ?_, ?_⟩
    · simp [stepIntParam, ht, pyInt_ok _ h hn, pbind_ok]
    · intro hc
      rw [hc] at ht
      cases ht
    · intro k hk
      exact dget_dset_ne p key k _ (Ne.symm hk)
  · have ht' : pyTruthy (dgetD params key .none) = false := by simpa using ht
    refine ⟨p, by simp [stepIntParam, ht'], ?_, fun _ => rfl, fun k _ => rfl⟩
    intro hc
    rw [hc] at ht'
    cases ht'

theorem stepSeed_spec (p params : PyDict) :
    ∃ p', stepSeed p params = .ok p' ∧
      (pyTruthy (dgetD params "seed" .none) = true →
        dget p' "seed" = some (dgetD params "seed" .none)) ∧
      (pyTruthy (dgetD params "seed" .none) = false → p' = p) ∧
      (∀ k, k ≠ "seed" → dget p' k = dget p k) := by
  by_cases ht : pyTruthy (dgetD params "seed" .none) = true
  · refine ⟨dset p "seed" (dgetD params "seed" .none),
      by simp [stepSeed, ht], fun _ => dget_dset_self p _ _, ?_, ?_⟩
    · intro hc
      rw [hc] at ht
      cases ht
    · intro k hk
      exact dget_dset_ne p "seed" k _ (Ne.symm hk)
  · have ht' : pyTruthy (dgetD params "seed" .none) = false := by simpa using ht
    refine ⟨p, by simp [stepSeed, ht'], ?_, fun _ => rfl, fun k _ => rfl⟩
    intro hc
    rw [hc] at ht'
    cases ht'

theorem decodeStopList_ok (xs : List PyVal)
    (h : xs.all (fun x => match x with | .str _ => true | _ => false) = true) :
    ∃ w, decodeStopList xs = .ok w := by
  induction xs with
  | nil => exact ⟨[], rfl⟩
  | cons x t ih =>
    rw [List.all_cons, Bool.and_eq_true] at h
    obtain ⟨w, hw⟩ := ih h.2
    cases x with
    | str s =>
      refine ⟨PyVal.str (pyUnicodeUnescape s) :: w, ?_⟩
      simp [decodeStopList, hw, pbind_ok]
    | none => simp at h
    | bool b => simp at h
    | int n => simp at h
    | float q => simp at h
    | list ys => simp at h
    | dict d => simp at h

theorem decodeStops_ok (v : PyVal) (h : stopOk v = true) (ht : pyTruthy v = true) :
    ∃ w, decodeStops v = .ok w := by
  cases v with
  | str s =>
    have hall : (s.toList.map (fun c => PyVal.str c.toString)).all
        (fun x => match x with | .str _ => true | _ => false) = true := by
      rw [List.all_eq_true]
      intro x hx
      rw [List.mem_map] at hx
      obtain ⟨c, _, rfl⟩ := hx
      rfl
    obtain ⟨w, hw⟩ := decodeStopList_ok _ hall
    refine ⟨.list w, ?_⟩
    simp only [String.toList] at hw
    simp [decodeStops, pyIterate, hw, pbind_ok]
  | list xs =>
    obtain ⟨w, hw⟩ := decodeStopList_ok xs (by simpa [stopOk] using h)
    exact ⟨.list w, by simp [decodeStops, pyIterate, hw, pbind_ok]⟩
  | none => simp [pyTruthy] at ht
  | bool b => simp [stopOk] at h
  | int n => simp [stopOk] at h
  | float q => simp [stopOk] at h
  | dict d => simp [stopOk] at h

theorem stepStop_spec (p params : PyDict)
    (h : stopOk (dgetD params "stop" .none) = true) :
    ∃ p', stepStop p params = .ok p' ∧
      (pyTruthy (dgetD params "stop" .none) = false → p' = p) ∧
      (∀ k, k ≠ "stop" → dget p' k = dget p k) := by
  by_cases ht : pyTruthy (dgetD params "stop" .none) = true
  · obtain ⟨w, hw⟩ := decodeStops_ok _ h ht
    refine ⟨dset p "stop" w, ?_, ?_, ?_⟩
    · simp [stepStop, ht, hw, pbind_ok]
    · intro hc
      rw [hc] at ht
      cases ht
    · intro k hk
      exact dget_dset_ne p "stop" k _ (Ne.symm hk)
  · have ht' : pyTruthy (dgetD params "stop" .none) = false := by simpa using ht
    exact ⟨p, by simp [stepStop, ht'], fun _ => rfl, fun k _ => rfl⟩

theorem applyModelParams_spec (p params : PyDict)
    (h1 : numOk (dgetD params "temperature" .none) = true)
    (h2 : numOk (dgetD params "top_p" .none) = true)
    (h3 : numOk (dgetD params "max_tokens" .none) = true)
    (h4 : numOk (dgetD params "frequency_penalty" .none) = true)
    (h5 : stopOk (dgetD params "stop" .none) = true) :
    ∃ p', applyModelParams p params = .ok p' ∧
      (pyIsNone (dgetD params "temperature" .none) = false →
        dget p' "temperature" = some (pyFloatVal (dgetD params "temperature" .none))) ∧
      (pyIsNone (dgetD params "temperature" .none) = true →
        dget p' "temperature" = dget p "temperature") ∧
      (pyTruthy (dgetD params "top_p" .none) = true →
        dget p' "top_p" = some (pyIntVal (dgetD params "top_p" .none))) ∧
      (pyTruthy (dgetD params "top_p" .none) = false →
        dget p' "top_p" = dget p "top_p") ∧
      (pyTruthy (dgetD params "max_tokens" .none) = true →
        dget p' "max_tokens" = some (pyIntVal (dgetD params "max_tokens" .none))) ∧
      (pyTruthy (dgetD params "max_tokens" .none) = false →
        dget p' "max_tokens" = dget p "max_tokens") ∧
      (pyTruthy (dgetD params "frequency_penalty" .none) = true →
        dget p' "frequency_penalty" =
          some (pyIntVal (dgetD params "frequency_penalty" .none))) ∧
      (pyTruthy (dgetD params "frequency_penalty" .none) = false →
        dget p' "frequency_penalty" = dget p "frequency_penalty") ∧
      (pyTruthy (dgetD params "seed" .none) = true →
        dget p' "seed" = some (dgetD params "seed" .none)) ∧
      (pyTruthy (dgetD params "seed" .none) = false →
        dget p' "seed" = dget p "seed") ∧
      (pyTruthy (dgetD params "stop" .none) = false →
        dget p' "stop" = dget p "stop") := by
  obtain ⟨q1, e1, v1, n1, f1⟩ := stepTemperature_spec p params h1
  obtain ⟨q2, e2, v2, n2, f2⟩ := stepIntParam_spec "top_p" q1 params h2
  obtain ⟨q3, e3, v3, n3, f3⟩ := stepIntParam_spec "max_tokens" q2 params h3
  obtain ⟨q4, e4, v4, n4, f4⟩ := stepIntParam_spec "frequency_penalty" q3 params h4
  obtain ⟨q5, e5, v5, n5, f5⟩ := stepSeed_spec q4 params
  obtain ⟨q6, e6, n6, f6⟩ := stepStop_spec q5 params h5
  have happ : applyModelParams p params = .ok q6 := by
    simp [applyModelParams, e1, e2, e3, e4, e5, e6, pbind_ok]
  refine ⟨q6, happ, ?_, ?_, ?_, ?_, ?_, ?_, ?_, ?_, ?_, ?_, ?_⟩
  · intro hc
    rw [f6 "temperature" (by decide), f5 "temperature" (by decide),
      f4 "temperature" (by decide), f3 "temperature" (by decide),
      f2 "temperature" (by decide)]
    exact v1 hc
  · intro hc
    rw [f6 "temperature" (by decide), f5 "temperature" (by decide),
      f4 "temperature" (by decide), f3 "temperature" (by decide),
      f2 "temperature" (by decide), n1 hc]
  · intro hc
    rw [f6 "top_p" (by decide), f5 "top_p" (by decide), f4 "top_p" (by decide),
      f3 "top_p" (by decide)]
    exact v2 hc
  · intro hc
    rw [f6 "top_p" (by decide), f5 "top_p" (by decide), f4 "top_p" (by decide),
      f3 "top_p" (by decide), n2 hc, f1 "top_p" (by decide)]
  · intro hc
    rw [f6 "max_tokens" (by decide), f5 "max_tokens" (by decide),
      f4 "max_tokens" (by decide)]
    exact v3 hc
  · intro hc
    rw [f6 "max_tokens" (by decide), f5 "max_tokens" (by decide),
      f4 "max_tokens" (by decide), n3 hc, f2 "max_tokens" (by decide),
      f1 "max_tokens" (by decide)]
  · intro hc
    rw [f6 "frequency_penalty" (by decide), f5 "frequency_penalty" (by decide)]
    exact v4 hc
  · intro hc
    rw [f6 "frequency_penalty" (by decide), f5 "frequency_penalty" (by decide),
      n4 hc, f3 "frequency_penalty" (by decide), f2 "frequency_penalty" (by decide),
      f1 "frequency_penalty" (by decide)]
  · intro hc
    rw [f6 "seed" (by decide)]
    exact v5 hc
  · intro hc
    rw [f6 "seed" (by decide), n5 hc, f4 "seed" (by decide), f3 "seed" (by decide),
      f2 "seed" (by decide), f1 "seed" (by decide)]
  · intro hc
    rw [n6 hc, f5 "stop" (by decide), f4 "stop" (by decide), f3 "stop" (by decide),
      f2 "stop" (by decide), f1 "stop" (by decide)]

/-- C6 (amended): in the override block, `temperature` overwrites the request
field (float-coerced) whenever the profile value is not `None` — including
zero — while `top_p`, `max_tokens` and `frequency_penalty` overwrite
(integer-coerced) and `seed` overwrites (passed through unchanged) only when
the profile value is *truthy*; a falsy profile value (absent, `None`, or
zero) leaves the request's own field untouched.  The profile value always
wins over an inbound value when it does overwrite.  As stated ("every
non-null value overwrites") the claim is false for a zero profile value of
the truthiness-guarded fields (see the counterexample). -/
theorem parameter_override_profile_wins (p params : PyDict)
    (h1 : numOk (dgetD params "temperature" .none) = true)
    (h2 : numOk (dgetD params "top_p" .none) = true)
    (h3 : numOk (dgetD params "max_tokens" .none) = true)
    (h4 : numOk (dgetD params "frequency_penalty" .none) = true)
    (h5 : stopOk (dgetD params "stop" .none) = true) :
    ∃ p', applyModelParams p params = .ok p' ∧
      (pyIsNone (dgetD params "temperature" .none) = false →
        dget p' "temperature" = some (pyFloatVal (dgetD params "temperature" .none))) ∧
      (pyTruthy (dgetD params "top_p" .none) = true →
        dget p' "top_p" = some (pyIntVal (dgetD params "top_p" .none))) ∧
      (pyTruthy (dgetD params "top_p" .none) = false →
        dget p' "top_p" = dget p "top_p") ∧
      (pyTruthy (dgetD params "max_tokens" .none) = true →
        dget p' "max_tokens" = some (pyIntVal (dgetD params "max_tokens" .none))) ∧
      (pyTruthy (dgetD params "max_tokens" .none) = false →
        dget p' "max_tokens" = dget p "max_tokens") ∧
      (pyTruthy (dgetD params "frequency_penalty" .none) = true →
        dget p' "frequency_penalty" =
          some (pyIntVal (dgetD params "frequency_penalty" .none))) ∧
      (pyTruthy (dgetD params "frequency_penalty" .none) = false →
        dget p' "frequency_penalty" = dget p "frequency_penalty") ∧
      (pyTruthy (dgetD params "seed" .none) = true →
        dget p' "seed" = some (dgetD params "seed" .none)) ∧
      (pyTruthy (dgetD params "seed" .none) = false →
        dget p' "seed" = dget p "seed") := by
  obtain ⟨p', happ, vt, _, vtp, ftp, vmt, fmt, vfp, ffp, vs, fs, _⟩ :=
    applyModelParams_spec p params h1 h2 h3 h4 h5
  exact ⟨p', happ, vt, vtp, ftp, vmt, fmt, vfp, ffp, vs, fs⟩

/-- Witness for the amended C6: the profile's temperature 1/5 replaces the
request's 9/10, its `top_p` 3 is written integer-coerced, and its seed 42 is
passed through. -/
theorem parameter_override_profile_wins_witness :
    ∃ p', applyModelParams [("temperature", .float (9/10))]
        [("temperature", .float (1/5)), ("top_p", .int 3), ("seed", .int 42)] =
          .ok p' ∧
      dget p' "temperature" = some (.float (1/5)) ∧
      dget p' "top_p" = some (.int 3) ∧
      dget p' "seed" = some (.int 42) := by
  obtain ⟨p', happ, vt, vtp, _, _, _, _, _, vs, _⟩ :=
    parameter_override_profile_wins [("temperature", .float (9/10))]
      [("temperature", .float (1/5)), ("top_p", .int 3), ("seed", .int 42)]
      (by rfl) (by rfl) (by rfl) (by rfl) (by rfl)
  exact ⟨p', happ, vt (by rfl), vtp (by rfl), vs (by rfl)⟩

/-- Counterexample to C6 as stated: the profile defines `top_p = 0` — a
non-null value — yet the forwarded payload keeps the request's own
`top_p = 1/2` instead of the claimed integer-coerced 0 (main.py:595 uses
truthiness, and `0` is falsy). -/
theorem parameter_override_counterexample :
    applyModelParams [("top_p", .float (1/2))] [("top_p", .int 0)] =
      .ok [("top_p", .float (1/2))] ∧
    ¬ (PyVal.float (1/2) = PyVal.int 0) := by
  exact ⟨rfl, by simp⟩

/-- C10: a profile value of `0` for `top_p`, `max_tokens`,
`frequency_penalty` or `seed`, or an empty `stop` list, is falsy and is
treated as absent — the request field is left untouched — whereas a profile
temperature of `0` is "not None" and does overwrite the request's
temperature with `float(0)`. -/
theorem zero_value_override_asymmetry (p params : PyDict)
    (h1 : numOk (dgetD params "temperature" .none) = true)
    (h2 : numOk (dgetD params "top_p" .none) = true)
    (h3 : numOk (dgetD params "max_tokens" .none) = true)
    (h4 : numOk (dgetD params "frequency_penalty" .none) = true)
    (h5 : stopOk (dgetD params "stop" .none) = true) :
    ∃ p', applyModelParams p params = .ok p' ∧
      (dgetD params "top_p" .none = .int 0 → dget p' "top_p" = dget p "top_p") ∧
      (dgetD params "max_tokens" .none = .int 0 →
        dget p' "max_tokens" = dget p "max_tokens") ∧
      (dgetD params "frequency_penalty" .none = .int 0 →
        dget p' "frequency_penalty" = dget p "frequency_penalty") ∧
      (dgetD params "seed" .none = .int 0 → dget p' "seed" = dget p "seed") ∧
      (dgetD params "stop" .none = .list [] → dget p' "stop" = dget p "stop") ∧
      (dgetD params "temperature" .none = .int 0 →
        dget p' "temperature" = some (.float 0)) := by
  obtain ⟨p', happ, vt, _, _, ftp, _, fmt, _, ffp, _, fs, fst⟩ :=
    applyModelParams_spec p params h1 h2 h3 h4 h5
  refine ⟨p', happ, ?_, ?_, ?_, ?_, ?_, ?_⟩
  · intro hz
    exact ftp (by rw [hz]; rfl)
  · intro hz
    exact fmt (by rw [hz]; rfl)
  · intro hz
    exact ffp (by rw [hz]; rfl)
  · intro hz
    exact fs (by rw [hz]; rfl)
  · intro hz
    exact fst (by rw [hz]; rfl)
  · intro hz
    have hv := vt (by rw [hz]; rfl)
    rw [hv, hz]
    simp [pyFloatVal]

/-- Witness for C10: with every profile value zero (and an empty stop list),
only temperature is overwritten (to `0.0`); `top_p` keeps the request's
value and `seed` stays absent. -/
theorem zero_value_override_asymmetry_witness :
    ∃ p', applyModelParams [("top_p", .float (1/2))]
        [("temperature", .int 0), ("top_p", .int 0), ("max_tokens", .int 0),
         ("frequency_penalty", .int 0), ("seed", .int 0), ("stop", .list [])] =
          .ok p' ∧
      dget p' "top_p" = some (.float (1/2)) ∧
      dget p' "seed" = Option.none ∧
      dget p' "temperature" = some (.float 0) := by
  obtain ⟨p', happ, ztp, _, _, zs, _, zt⟩ :=
    zero_value_override_asymmetry [("top_p", .float (1/2))]
      [("temperature", .int 0), ("top_p", .int 0), ("max_tokens", .int 0),
       ("frequency_penalty", .int 0), ("seed", .int 0), ("stop", .list [])]
      (by rfl) (by rfl) (by rfl) (by rfl) (by rfl)
  refine ⟨p', happ, ?_, ?_, zt rfl⟩
  · exact (ztp rfl).trans rfl
  · exact (zs rfl).trans rfl

-- ## System-prompt injection (claim C7)

theorem prependSystem_none (s : String) (msgs : List PyVal)
    (h : msgs.all nonSystemDict = true) :
    prependSystem msgs s = .ok Option.none := by
  induction msgs with
  | nil => rfl
  | cons m t ih =>
    rw [List.all_cons, Bool.and_eq_true] at h
    cases m with
    | dict d =>
      have hrole : pyEqStr (dgetD d "role" .none) "system" = false := by
        have hx := h.1
        simpa [nonSystemDict] using hx
      simp only [prependSystem, hrole, Bool.false_eq_true, if_false, ih h.2, pbind_ok]
    | none => simp [nonSystemDict] at h
    | bool b => simp [nonSystemDict] at h
    | int n => simp [nonSystemDict] at h
    | float q => simp [nonSystemDict] at h
    | str s' => simp [nonSystemDict] at h
    | list xs => simp [nonSystemDict] at h

theorem prependSystem_found (s : String) (pre post : List PyVal) (d : PyDict)
    (c : String)
    (hpre : pre.all nonSystemDict = true)
    (hrole : pyEqStr (dgetD d "role" .none) "system" = true)
    (hcontent : dget d "content" = some (.str c)) :
    prependSystem (pre ++ .dict d :: post) s =
      .ok (some (pre ++ .dict (dset d "content" (.str (s ++ c))) :: post)) := by
  induction pre with
  | nil =>
    simp only [List.nil_append, prependSystem, hrole, if_true, hcontent]
  | cons m t ih =>
    rw [List.all_cons, Bool.and_eq_true] at hpre
    cases m with
    | dict d0 =>
      have hrole0 : pyEqStr (dgetD d0 "role" .none) "system" = false := by
        have hx := hpre.1
        simpa [nonSystemDict] using hx
      rw [List.cons_append]
      simp only [prependSystem, hrole0, Bool.false_eq_true, if_false, ih hpre.2,
        pbind_ok, List.cons_append]
    | none => simp [nonSystemDict] at hpre
    | bool b => simp [nonSystemDict] at hpre
    | int n => simp [nonSystemDict] at hpre
    | float q => simp [nonSystemDict] at hpre
    | str s' => simp [nonSystemDict] at hpre
    | list xs => simp [nonSystemDict] at hpre

/-- C7 (amended): when the profile defines a system template, the handler
only touches the payload when `payload.get("messages")` is truthy: for a
*nonempty* message list with no system message, exactly one new system
message is inserted at position 0; when a system message exists, the rendered
template is prepended to the first one's content and no message is added; an
absent or *empty* messages list is left completely unchanged.  As stated
("if the request has no system message, a system message is inserted") the
claim is false for an empty message list (see the counterexample). -/
theorem system_prompt_injection (p : PyDict) (s : String) :
    (pyTruthy (dgetD p "messages" .none) = false → applySystem p s = .ok p) ∧
    (∀ msgs, dgetD p "messages" .none = .list msgs → msgs ≠ [] →
      msgs.all nonSystemDict = true →
      applySystem p s = .ok (dset p "messages"
        (.list (mkSystemMessage s :: msgs)))) ∧
    (∀ pre post d c, dgetD p "messages" .none = .list (pre ++ .dict d :: post) →
      pre.all nonSystemDict = true →
      pyEqStr (dgetD d "role" .none) "system" = true →
      dget d "content" = some (.str c) →
      applySystem p s = .ok (dset p "messages"
        (.list (pre ++ .dict (dset d "content" (.str (s ++ c))) :: post)))) := by
  refine ⟨?_, ?_, ?_⟩
  · intro hf
    simp [applySystem, hf]
  · intro msgs hm hne hall
    have ht : pyTruthy (PyVal.list msgs) = true := by
      cases msgs with
      | nil => exact absurd rfl hne
      | cons a b => rfl
    simp only [applySystem, hm, ht, if_true, prependSystem_none s msgs hall, pbind_ok]
  · intro pre post d c hm hpre hrole hcontent
    have ht : pyTruthy (PyVal.list (pre ++ PyVal.dict d :: post)) = true := by
      cases pre <;> rfl
    simp only [applySystem, hm, ht, if_true,
      prependSystem_found s pre post d c hpre hrole hcontent, pbind_ok]

/-- Witness for the amended C7: a lone user message gains exactly one system
message at position 0; an existing system message has the template prepended
to its content and no message is added. -/
theorem system_prompt_injection_witness :
    applySystem [("messages",
        .list [.dict [("role", .str "user"), ("content", .str "hi")]])] "S" =
      .ok [("messages", .list [mkSystemMessage "S",
        .dict [("role", .str "user"), ("content", .str "hi")]])] ∧
    applySystem [("messages",
        .list [.dict [("role", .str "system"), ("content", .str "old")]])] "S" =
      .ok [("messages",
        .list [.dict [("role", .str "system"), ("content", .str "Sold")]])] := by
  have h1 := (system_prompt_injection
    [("messages", .list [.dict [("role", .str "user"), ("content", .str "hi")]])]
    "S").2.1 [.dict [("role", .str "user"), ("content", .str "hi")]]
    rfl (by simp) (by rfl)
  have h2 := (system_prompt_injection
    [("messages", .list [.dict [("role", .str "system"), ("content", .str "old")]])]
    "S").2.2 [] [] [("role", .str "system"), ("content", .str "old")] "old"
    rfl rfl rfl rfl
  constructor
  · rw [h1]
    rfl
  · rw [h2]
    rfl

/-- Counterexample to C7 as stated: a request with an *empty* message list
has no message with role `"system"`, yet the payload is returned unchanged —
no system message is inserted at position 0 (the injection is guarded by
`if payload.get("messages"):`, main.py:636, and `[]` is falsy). -/
theorem system_prompt_counterexample :
    applySystem [("model", .str "m"), ("messages", .list [])] "SYS" =
      .ok [("model", .str "m"), ("messages", .list [])] ∧
    ¬ (PyVal.list [] = PyVal.list [mkSystemMessage "SYS"]) := by
  exact ⟨rfl, by simp⟩
